import Mathlib

/-!
CigmanIA: the per-turn decision loop of `MyBot.cpp`

A shallow embedding of the bot's turn: the returning-flag update, the ordering of the
ships, target selection, local pathfinding with the claimed-cell set, and the spawn gate.

Conventions of the embedding.

* C++ `int` values are `Int`; `/` on them is truncated division (`Int.tdiv`).
* `double` expressions (`* 0.25`, `* 1.2`, `* 0.90`) are evaluated over `ℚ` with the
  decimal constants read exactly (`1/4`, `6/5`, `9/10`).
* `std::map<EntityId, bool>` is a function `Int → Option Bool`; `std::set<int>` is a list
  used through membership and insertion only.
* The engine-interface layer (`hlt/`) is not part of the sources: the map accessor
  (cell resource, occupancy, distance, neighbour offset) and the game constants are
  parameters of every definition.
-/

namespace CigmanIA

/-! ## Data model -/

/-- A grid coordinate (`hlt::Position`). -/
structure Position where
  x : Int
  y : Int
deriving DecidableEq, Repr

/-- The five values of `hlt::Direction`. -/
inductive Direction where
  | NORTH
  | SOUTH
  | EAST
  | WEST
  | STILL
deriving DecidableEq, Repr

/-- Modelled from the spec: the four cardinal directions in the fixed enumeration order of
the engine layer (`ALL_CARDINALS`, declared in `hlt/direction.hpp`, which is not in the
sources). No statement below depends on the particular order chosen here. -/
def ALL_CARDINALS : List Direction :=
  [Direction.NORTH, Direction.SOUTH, Direction.EAST, Direction.WEST]

/-- An owned unit (`hlt::Ship`): identity, position, carried resource. -/
structure Ship where
  id : Int
  position : Position
  halite : Int
deriving DecidableEq, Repr

/-- The game constants read from `hlt::constants`. -/
structure Constants where
  MAX_TURNS : Int
  MAX_HALITE : Int
  SHIP_COST : Int
  MOVE_COST_RATIO : Int

/-- Modelled from the spec: the grid/map accessor of the engine layer (`hlt::GameMap` and
`Position::directional_offset`, not in the sources). `halite p` is `at(p)->halite`,
`is_occupied p` is `at(p)->is_occupied()`, `neighbor p d` is the cell next to `p` in the
cardinal direction `d`. All four operations are arbitrary functions. -/
structure GameMap where
  width : Int
  height : Int
  halite : Position → Int
  is_occupied : Position → Bool
  calculate_distance : Position → Position → Int
  neighbor : Position → Direction → Position

/-- The player record (`hlt::Player`): available resource, base position, owned ships. -/
structure Player where
  halite : Int
  shipyard : Position
  ships : List Ship

/-- A command of the turn: `ship->move(d)`, `ship->stay_still()`, `shipyard->spawn()`. -/
inductive Command where
  | move (id : Int) (d : Direction)
  | stay (id : Int)
  | spawn
deriving DecidableEq, Repr

/-- The returning-flag mapping `map<EntityId, bool> is_returning`. -/
abbrev FlagMap := Int → Option Bool

/-- The mapping with no entry. -/
def FlagMap.empty : FlagMap := fun _ => none

/-- Assignment `is_returning[id] = b`. -/
def FlagMap.set (m : FlagMap) (id : Int) (b : Bool) : FlagMap :=
  fun k => if k = id then some b else m k

/-- Read of `is_returning[id]`: the stored flag, `false` for an id without entry (what
`operator[]` default-constructs, and what `should_spawn` computes through `find`). -/
def FlagMap.get (m : FlagMap) (id : Int) : Bool :=
  (m id).getD false

/-- Modelled from the spec: `Position::directional_offset`; `STILL` leaves the position
unchanged and a cardinal direction gives the neighbour cell of the map accessor. -/
def directional_offset (game_map : GameMap) (p : Position) (d : Direction) : Position :=
  match d with
  | Direction.STILL => p
  | _ => game_map.neighbor p d

/-- The cell index `p.y * map_width + p.x` used as key of the claimed-cell set. -/
def cell_index (game_map : GameMap) (p : Position) : Int :=
  p.y * game_map.width + p.x

/-! ## Spawn gate (`should_spawn`, lines 33-86) -/

/-- The constant `divisor_spawn`. -/
def divisor_spawn : Int := 75

/-- The constant `cap_returning_nearby`. -/
def cap_returning_nearby : Int := 2

/-- The cap `max(8, area / divisor_spawn)`. -/
def ship_cap (game_map : GameMap) : Int :=
  max 8 ((game_map.width * game_map.height).tdiv divisor_spawn)

/-- The value `stop_buffer`. -/
def stop_buffer (game_map : GameMap) : Int :=
  if game_map.width * game_map.height ≤ 1600 then 80 else 110

/-- The value `reserve`. -/
def reserve (turn_number : Int) : Int :=
  if turn_number < 50 then 500 else (if turn_number < 120 then 280 else 125)

/-- The counting loop of lines 65-82: returning ships at distance `< 4` from the base. -/
def returning_nearby (game_map : GameMap) (me : Player) (is_returning : FlagMap)
    (my_ships : List Ship) : Int :=
  my_ships.foldl
    (fun n s =>
      if is_returning.get s.id then
        (if game_map.calculate_distance s.position me.shipyard < 4 then n + 1 else n)
      else n)
    0

/-- The lambda `should_spawn`. -/
def should_spawn (c : Constants) (turn_number : Int) (me : Player) (game_map : GameMap)
    (occupied_indices : List Int) (is_returning : FlagMap) (my_ships : List Ship) : Bool :=
  let ship_count : Int := my_ships.length
  if ship_count ≥ ship_cap game_map then false
  else if turn_number > c.MAX_TURNS - stop_buffer game_map then false
  else if me.halite < c.SHIP_COST + reserve turn_number then false
  else if cell_index game_map me.shipyard ∈ occupied_indices then false
  else if game_map.is_occupied me.shipyard then false
  else if returning_nearby game_map me is_returning my_ships > cap_returning_nearby then false
  else true

/-! ## State update (lines 98-127) -/

/-- The flag `end_game_mode`. -/
def end_game_mode (c : Constants) (turn_number : Int) : Bool :=
  decide (turn_number > c.MAX_TURNS - 30)

/-- The body of the state-update loop for one ship. -/
def update_state (c : Constants) (me : Player) (endgame : Bool) (is_returning : FlagMap)
    (ship : Ship) : FlagMap :=
  let id := ship.id
  let m := if is_returning id = none then is_returning.set id false else is_returning
  if endgame then m.set id true
  else if m.get id then
    (if ship.position = me.shipyard then m.set id false else m)
  else
    (if (ship.halite : ℚ) ≥ (c.MAX_HALITE : ℚ) * (9 / 10) then m.set id true else m)

/-- The state-update loop over all ships of the snapshot. -/
def update_states (c : Constants) (me : Player) (endgame : Bool) (is_returning : FlagMap)
    (my_ships : List Ship) : FlagMap :=
  my_ships.foldl (update_state c me endgame) is_returning

/-! ## Ordering (lines 130-136) -/

/-- The comparator passed to `std::sort`: returning first, then higher carried resource. -/
def ship_before (is_returning : FlagMap) (a b : Ship) : Bool :=
  let a_ret := is_returning.get a.id
  let b_ret := is_returning.get b.id
  if a_ret ≠ b_ret then (a_ret && !b_ret)
  else decide (a.halite > b.halite)

/-- The order relation handed to the sorting routine: `a` may stand before `b` when the
comparator does not put `b` strictly before `a`. -/
def ship_order (is_returning : FlagMap) (a b : Ship) : Prop :=
  ship_before is_returning b a = false

instance (is_returning : FlagMap) : DecidableRel (ship_order is_returning) :=
  fun a b => inferInstanceAs (Decidable (ship_before is_returning b a = false))

/-- The call `std::sort(my_ships.begin(), my_ships.end(), comparator)`, realised as an
insertion sort with the comparator. -/
def sort_ships (is_returning : FlagMap) (my_ships : List Ship) : List Ship :=
  my_ships.insertionSort (ship_order is_returning)

/-! ## Per-unit decision (lines 139-262) -/

/-- The value `move_cost = halite_on_cell / MOVE_COST_RATIO` (truncated division). -/
def move_cost (c : Constants) (game_map : GameMap) (ship : Ship) : Int :=
  (game_map.halite ship.position).tdiv c.MOVE_COST_RATIO

/-- The flag `can_move`. -/
def can_move (c : Constants) (game_map : GameMap) (ship : Ship) : Bool :=
  decide (ship.halite ≥ move_cost c game_map ship)

/-- The value `gain_stay = halite_on_cell * 0.25`. -/
def gain_stay (game_map : GameMap) (ship : Ship) : ℚ :=
  (game_map.halite ship.position : ℚ) * (1 / 4)

/-- The value `gain` computed for the neighbour in direction `dir`. -/
def gain_move (c : Constants) (game_map : GameMap) (ship : Ship) (dir : Direction) : ℚ :=
  (game_map.halite (directional_offset game_map ship.position dir) : ℚ) * (1 / 4)
    - (move_cost c game_map ship : ℚ)

/-- One iteration of the neighbour scan on the pair `(max_gain_move, best_neighbor)`. -/
def scan_step (c : Constants) (game_map : GameMap) (ship : Ship)
    (acc : ℚ × Position) (dir : Direction) : ℚ × Position :=
  if gain_move c game_map ship dir > acc.1 then
    (gain_move c game_map ship dir, directional_offset game_map ship.position dir)
  else acc

/-- The neighbour scan of lines 162-174, started from `(-1.0, ship->position)`. -/
def scan_neighbors (c : Constants) (game_map : GameMap) (ship : Ship) : ℚ × Position :=
  ALL_CARDINALS.foldl (scan_step c game_map ship) (-1, ship.position)

/-- The value of `target_pos` after lines 148-183. -/
def target_pos (c : Constants) (game_map : GameMap) (me : Player) (is_returning : FlagMap)
    (ship : Ship) : Position :=
  if !can_move c game_map ship then ship.position
  else if is_returning.get ship.id then me.shipyard
  else
    let scan := scan_neighbors c game_map ship
    if scan.1 > gain_stay game_map ship * (6 / 5) then scan.2 else ship.position

/-- The test `!occupied_indices.count(p_idx) && !game_map->at(p)->is_occupied()`. -/
def cell_free (game_map : GameMap) (occupied_indices : List Int) (p : Position) : Bool :=
  !decide (cell_index game_map p ∈ occupied_indices) && !game_map.is_occupied p

/-- One iteration of the escape scan on the pair `(best_escape_halite, best_move)`. -/
def escape_step (game_map : GameMap) (occupied_indices : List Int) (ship : Ship)
    (acc : Int × Direction) (d : Direction) : Int × Direction :=
  let p := directional_offset game_map ship.position d
  if cell_free game_map occupied_indices p then
    (if game_map.halite p > acc.1 then (game_map.halite p, d) else acc)
  else acc

/-- The escape scan of lines 194-207, started from `(-1, STILL)`. -/
def escape_scan (game_map : GameMap) (occupied_indices : List Int) (ship : Ship) :
    Int × Direction :=
  ALL_CARDINALS.foldl (escape_step game_map occupied_indices ship) (-1, Direction.STILL)

/-- The list `valid_moves` built by lines 214-235 for the target `target`. -/
def valid_moves (game_map : GameMap) (is_returning : FlagMap) (occupied_indices : List Int)
    (ship : Ship) (target : Position) : List Direction :=
  let target_dist := game_map.calculate_distance ship.position target
  ALL_CARDINALS.filter (fun dir =>
    let p := directional_offset game_map ship.position dir
    let dist := game_map.calculate_distance p target
    let blocked :=
      decide (cell_index game_map p ∈ occupied_indices) || game_map.is_occupied p
    !blocked && (decide (dist < target_dist) || (!is_returning.get ship.id && decide (p = target))))

/-- The value of `best_move` after the pathfinding block (lines 186-241). -/
def path_move (c : Constants) (game_map : GameMap) (me : Player) (endgame : Bool)
    (is_returning : FlagMap) (occupied_indices : List Int) (ship : Ship) : Direction :=
  let target := target_pos c game_map me is_returning ship
  if target = ship.position then
    (if decide (ship.position = me.shipyard) && !endgame && can_move c game_map ship then
      (escape_scan game_map occupied_indices ship).2
    else Direction.STILL)
  else
    (if can_move c game_map ship then
      (match valid_moves game_map is_returning occupied_indices ship target with
       | [] => Direction.STILL
       | d :: _ => d)
    else Direction.STILL)

/-- The value of `best_move` after the affordability safety net (lines 243-244). -/
def safe_move (c : Constants) (game_map : GameMap) (me : Player) (endgame : Bool)
    (is_returning : FlagMap) (occupied_indices : List Int) (ship : Ship) : Direction :=
  let best := path_move c game_map me endgame is_returning occupied_indices ship
  if best ≠ Direction.STILL ∧ ship.halite < move_cost c game_map ship then Direction.STILL
  else best

/-- The decision taken for one ship: the final `best_move` and `final_pos` (lines 246-253). -/
structure Decision where
  best_move : Direction
  final_pos : Position
deriving DecidableEq, Repr

/-- The final collision check of lines 246-253. -/
def decide_ship (c : Constants) (game_map : GameMap) (me : Player) (endgame : Bool)
    (is_returning : FlagMap) (occupied_indices : List Int) (ship : Ship) : Decision :=
  let best := safe_move c game_map me endgame is_returning occupied_indices ship
  let final_pos := directional_offset game_map ship.position best
  if cell_index game_map final_pos ∈ occupied_indices then
    { best_move := Direction.STILL, final_pos := ship.position }
  else
    { best_move := best, final_pos := final_pos }

/-- The command pushed for a ship (lines 258-261). -/
def command_of (ship : Ship) (best_move : Direction) : Command :=
  if best_move = Direction.STILL then Command.stay ship.id
  else Command.move ship.id best_move

/-- The state carried through the decision loop: the claimed-cell set, the command queue,
and (as a trace, not read by the program) the `final_pos` of each processed ship. -/
structure LoopState where
  occupied_indices : List Int
  command_queue : List Command
  final_positions : List Position

/-- The body of the decision loop for one ship. -/
def loop_step (c : Constants) (game_map : GameMap) (me : Player) (endgame : Bool)
    (is_returning : FlagMap) (st : LoopState) (ship : Ship) : LoopState :=
  let dec := decide_ship c game_map me endgame is_returning st.occupied_indices ship
  { occupied_indices := cell_index game_map dec.final_pos :: st.occupied_indices,
    command_queue := st.command_queue ++ [command_of ship dec.best_move],
    final_positions := st.final_positions ++ [dec.final_pos] }

/-- The decision loop over the ships in processing order, from the empty claimed-cell set
and the empty command queue. -/
def decision_loop (c : Constants) (game_map : GameMap) (me : Player) (endgame : Bool)
    (is_returning : FlagMap) (ships : List Ship) : LoopState :=
  ships.foldl (loop_step c game_map me endgame is_returning)
    { occupied_indices := [], command_queue := [], final_positions := [] }

/-! ## One turn (lines 88-272) -/

/-- The result of a turn: the flag mapping kept for the next turn, the ships in processing
order, the final cells and the command queue handed to `end_turn`. -/
structure TurnResult where
  is_returning : FlagMap
  my_ships : List Ship
  final_positions : List Position
  command_queue : List Command

/-- The body of the main loop for one snapshot. -/
def turn (c : Constants) (turn_number : Int) (me : Player) (game_map : GameMap)
    (is_returning : FlagMap) : TurnResult :=
  let endgame := end_game_mode c turn_number
  let flags := update_states c me endgame is_returning me.ships
  let my_ships := sort_ships flags me.ships
  let st := decision_loop c game_map me endgame flags my_ships
  let spawn_cmds :=
    if should_spawn c turn_number me game_map st.occupied_indices flags my_ships then
      [Command.spawn]
    else []
  { is_returning := flags,
    my_ships := my_ships,
    final_positions := st.final_positions,
    command_queue := st.command_queue ++ spawn_cmds }

/-- A snapshot of a turn as far as the state update reads it: turn number and player. -/
structure Snapshot where
  turn_number : Int
  me : Player

/-- The flag mapping after the state update of one snapshot. -/
def update_turn (c : Constants) (is_returning : FlagMap) (snap : Snapshot) : FlagMap :=
  update_states c snap.me (end_game_mode c snap.turn_number) is_returning snap.me.ships

/-- The flag mapping after the state updates of a sequence of snapshots, the mapping being
carried from one turn to the next. -/
def update_turns (c : Constants) (is_returning : FlagMap) (snaps : List Snapshot) : FlagMap :=
  snaps.foldl (update_turn c) is_returning

/-! ## Auxiliary definitions for the statements -/

/-- The test of the counting loop for one ship: returning and at distance `< 4`. -/
def near_returning (game_map : GameMap) (me : Player) (is_returning : FlagMap)
    (s : Ship) : Bool :=
  is_returning.get s.id && decide (game_map.calculate_distance s.position me.shipyard < 4)

/-- The shape of a unit command for ship `s`: a stay, or a move in a cardinal direction. -/
def unit_command (s : Ship) (cmd : Command) : Prop :=
  cmd = Command.stay s.id ∨ ∃ d, d ≠ Direction.STILL ∧ cmd = Command.move s.id d

/-- The cell a unit command commits ship `s` to: its own cell for a stay command, the
neighbour cell in the commanded direction for a move command. -/
def destination (game_map : GameMap) (s : Ship) (cmd : Command) : Position :=
  match cmd with
  | Command.move _ d => directional_offset game_map s.position d
  | _ => s.position

/-- A direction qualifies for the move towards `target`: the resulting cell is neither
occupied on the map nor claimed this turn, and it is strictly closer to the target than the
current position or, for a non-returning unit, it is the target itself. -/
def move_qualifies (game_map : GameMap) (is_returning : FlagMap) (occupied_indices : List Int)
    (ship : Ship) (target : Position) (d : Direction) : Prop :=
  game_map.is_occupied (directional_offset game_map ship.position d) = false
    ∧ cell_index game_map (directional_offset game_map ship.position d) ∉ occupied_indices
    ∧ (game_map.calculate_distance (directional_offset game_map ship.position d) target
          < game_map.calculate_distance ship.position target
        ∨ (is_returning.get ship.id = false
            ∧ directional_offset game_map ship.position d = target))

instance (game_map : GameMap) (is_returning : FlagMap) (occupied_indices : List Int)
    (ship : Ship) (target : Position) (d : Direction) :
    Decidable (move_qualifies game_map is_returning occupied_indices ship target d) := by
  unfold move_qualifies
  infer_instance

/-- The neighbour of the ship in direction `d` is free: neither occupied on the map nor
claimed this turn. -/
def neighbour_free (game_map : GameMap) (occupied_indices : List Int) (ship : Ship)
    (d : Direction) : Prop :=
  game_map.is_occupied (directional_offset game_map ship.position d) = false
    ∧ cell_index game_map (directional_offset game_map ship.position d) ∉ occupied_indices

instance (game_map : GameMap) (occupied_indices : List Int) (ship : Ship) (d : Direction) :
    Decidable (neighbour_free game_map occupied_indices ship d) := by
  unfold neighbour_free
  infer_instance

/-! ## The planner without the landing-on-target branch -/

/-- The list `valid_moves` of lines 214-235 with the branch
`else if (!is_returning[id] && p == target_pos)` removed: only unblocked directions that
strictly reduce the distance to the target are kept. -/
def valid_moves_closer (game_map : GameMap) (occupied_indices : List Int) (ship : Ship)
    (target : Position) : List Direction :=
  let target_dist := game_map.calculate_distance ship.position target
  ALL_CARDINALS.filter (fun dir =>
    let p := directional_offset game_map ship.position dir
    let dist := game_map.calculate_distance p target
    let blocked :=
      decide (cell_index game_map p ∈ occupied_indices) || game_map.is_occupied p
    !blocked && decide (dist < target_dist))

/-- The pathfinding block with the branch removed (`path_move` over `valid_moves_closer`). -/
def path_move_closer (c : Constants) (game_map : GameMap) (me : Player) (endgame : Bool)
    (is_returning : FlagMap) (occupied_indices : List Int) (ship : Ship) : Direction :=
  let target := target_pos c game_map me is_returning ship
  if target = ship.position then
    (if decide (ship.position = me.shipyard) && !endgame && can_move c game_map ship then
      (escape_scan game_map occupied_indices ship).2
    else Direction.STILL)
  else
    (if can_move c game_map ship then
      (match valid_moves_closer game_map occupied_indices ship target with
       | [] => Direction.STILL
       | d :: _ => d)
    else Direction.STILL)

/-- The safety net applied to `path_move_closer`. -/
def safe_move_closer (c : Constants) (game_map : GameMap) (me : Player) (endgame : Bool)
    (is_returning : FlagMap) (occupied_indices : List Int) (ship : Ship) : Direction :=
  let best := path_move_closer c game_map me endgame is_returning occupied_indices ship
  if best ≠ Direction.STILL ∧ ship.halite < move_cost c game_map ship then Direction.STILL
  else best

/-- The final collision check applied to `safe_move_closer`. -/
def decide_ship_closer (c : Constants) (game_map : GameMap) (me : Player) (endgame : Bool)
    (is_returning : FlagMap) (occupied_indices : List Int) (ship : Ship) : Decision :=
  let best := safe_move_closer c game_map me endgame is_returning occupied_indices ship
  let final_pos := directional_offset game_map ship.position best
  if cell_index game_map final_pos ∈ occupied_indices then
    { best_move := Direction.STILL, final_pos := ship.position }
  else
    { best_move := best, final_pos := final_pos }

/-- The body of the decision loop with the branch removed. -/
def loop_step_closer (c : Constants) (game_map : GameMap) (me : Player) (endgame : Bool)
    (is_returning : FlagMap) (st : LoopState) (ship : Ship) : LoopState :=
  let dec := decide_ship_closer c game_map me endgame is_returning st.occupied_indices ship
  { occupied_indices := cell_index game_map dec.final_pos :: st.occupied_indices,
    command_queue := st.command_queue ++ [command_of ship dec.best_move],
    final_positions := st.final_positions ++ [dec.final_pos] }

/-- The decision loop with the branch removed. -/
def decision_loop_closer (c : Constants) (game_map : GameMap) (me : Player) (endgame : Bool)
    (is_returning : FlagMap) (ships : List Ship) : LoopState :=
  ships.foldl (loop_step_closer c game_map me endgame is_returning)
    { occupied_indices := [], command_queue := [], final_positions := [] }

/-! ## Concrete inputs used to instantiate the theorems -/

/-- Sample neighbour function: the plain coordinate offset, north being `y - 1`. -/
def sample_neighbor (p : Position) (d : Direction) : Position :=
  match d with
  | Direction.NORTH => { x := p.x, y := p.y - 1 }
  | Direction.SOUTH => { x := p.x, y := p.y + 1 }
  | Direction.EAST => { x := p.x + 1, y := p.y }
  | Direction.WEST => { x := p.x - 1, y := p.y }
  | Direction.STILL => p

/-- Sample distance: the Manhattan distance of the coordinates. -/
def sample_distance (a b : Position) : Int :=
  |a.x - b.x| + |a.y - b.y|

/-- Sample constants: 500 turns, capacity 1000, unit cost 500, move cost ratio 10. -/
def sample_constants : Constants :=
  { MAX_TURNS := 500, MAX_HALITE := 1000, SHIP_COST := 500, MOVE_COST_RATIO := 10 }

/-- An empty 32x32 map: no resource, no occupied cell. -/
def empty_map : GameMap :=
  { width := 32, height := 32, halite := fun _ => 0, is_occupied := fun _ => false,
    calculate_distance := sample_distance, neighbor := sample_neighbor }

/-- A ship with id `i` on cell `(i, 0)` carrying nothing. -/
def idle_ship (i : Nat) : Ship :=
  { id := i, position := { x := i, y := 0 }, halite := 0 }

/-- A player with `n` idle ships, resource 1200 and the base at `(16, 16)`. -/
def sample_player (n : Nat) : Player :=
  { halite := 1200, shipyard := { x := 16, y := 16 }, ships := (List.range n).map idle_ship }

/-- Two endgame snapshots (turns 480 and 481 of 500): two idle ships, then one. -/
def sample_snapshots : List Snapshot :=
  [{ turn_number := 480, me := sample_player 2 }, { turn_number := 481, me := sample_player 1 }]

/-- A 32x32 map with resource 100 on cell `(5, 5)`, 200 on its northern neighbour `(5, 4)`
and nothing elsewhere; no occupied cell. -/
def rich_map : GameMap :=
  { width := 32, height := 32,
    halite := fun p =>
      if p = { x := 5, y := 5 } then 100 else if p = { x := 5, y := 4 } then 200 else 0,
    is_occupied := fun _ => false,
    calculate_distance := sample_distance, neighbor := sample_neighbor }

/-- A ship with id 7 on cell `(5, 5)` carrying 50. -/
def miner : Ship :=
  { id := 7, position := { x := 5, y := 5 }, halite := 50 }

/-- A ship with id 7 on cell `(5, 5)` carrying nothing. -/
def stranded : Ship :=
  { id := 7, position := { x := 5, y := 5 }, halite := 0 }

/-- A player whose only ship is `stranded`, with the base at `(16, 16)`. -/
def stranded_player : Player :=
  { halite := 0, shipyard := { x := 16, y := 16 }, ships := [stranded] }

/-- The map `rich_map` with the two cells `(5, 5)` and `(5, 3)` marked occupied. -/
def crowded_map : GameMap :=
  { rich_map with
    is_occupied := fun p => decide (p = { x := 5, y := 5 }) || decide (p = { x := 5, y := 3 }) }

/-- A player with two ships, on `(5, 5)` carrying 50 and on `(5, 3)` carrying 60, both next
to the rich cell `(5, 4)`; base at `(16, 16)`. -/
def rival_player : Player :=
  { halite := 0, shipyard := { x := 16, y := 16 },
    ships := [miner, { id := 8, position := { x := 5, y := 3 }, halite := 60 }] }

/-- A 32x32 map around the base `(16, 16)`: resource 30 north of it, 80 south and east of
it, nothing elsewhere; only the base cell is occupied (by the ship standing on it). -/
def base_map : GameMap :=
  { width := 32, height := 32,
    halite := fun p =>
      if p = { x := 16, y := 15 } then 30
      else if p = { x := 16, y := 17 } then 80
      else if p = { x := 17, y := 16 } then 80 else 0,
    is_occupied := fun p => decide (p = { x := 16, y := 16 }),
    calculate_distance := sample_distance, neighbor := sample_neighbor }

/-- A ship with id 9 standing on the base cell `(16, 16)` and carrying 950. -/
def depositor : Ship :=
  { id := 9, position := { x := 16, y := 16 }, halite := 950 }

/-- A player whose only ship is `depositor`, with the base at `(16, 16)`. -/
def depositor_player : Player :=
  { halite := 0, shipyard := { x := 16, y := 16 }, ships := [depositor] }

/-- A player with resource 2000 whose only ship is `stranded`, with the base at `(16, 16)`. -/
def wealthy_player : Player :=
  { halite := 2000, shipyard := { x := 16, y := 16 }, ships := [stranded] }

/-- A player whose only ship is `miner`, with the base at `(16, 16)`. -/
def miner_player : Player :=
  { halite := 0, shipyard := { x := 16, y := 16 }, ships := [miner] }

/-- Coordinates read modulo the map size (the cell a coordinate pair denotes on a map that
wraps around). -/
def normalize (width height : Int) (p : Position) : Position :=
  { x := p.x % width, y := p.y % height }

/-- The distance on a map that wraps around: per axis the shorter way round, between the
cells the two coordinate pairs denote. -/
def torus_distance (width height : Int) (a b : Position) : Int :=
  let dx := |(normalize width height a).x - (normalize width height b).x|
  let dy := |(normalize width height a).y - (normalize width height b).y|
  min dx (width - dx) + min dy (height - dy)

/-- A 32x32 map that wraps around: resource, occupancy and distance read coordinates modulo
32, the neighbour offset is the plain coordinate offset. Resource 1000 on cell `(31, 5)`,
nothing elsewhere; the cells `(0, 5)` and `(30, 5)` are occupied. -/
def torus_map : GameMap :=
  { width := 32, height := 32,
    halite := fun p => if normalize 32 32 p = { x := 31, y := 5 } then 1000 else 0,
    is_occupied := fun p =>
      decide (normalize 32 32 p = { x := 0, y := 5 })
        || decide (normalize 32 32 p = { x := 30, y := 5 }),
    calculate_distance := torus_distance 32 32, neighbor := sample_neighbor }

/-- A ship with id 1 on the western edge cell `(0, 5)` carrying 5. -/
def west_ship : Ship :=
  { id := 1, position := { x := 0, y := 5 }, halite := 5 }

/-- A ship with id 2 on cell `(30, 5)` carrying 10. -/
def east_ship : Ship :=
  { id := 2, position := { x := 30, y := 5 }, halite := 10 }

/-- A player with the two ships `west_ship` and `east_ship`, on either side of the cell
`(31, 5)` of the wrapping map; base at `(16, 16)`. -/
def edge_player : Player :=
  { halite := 0, shipyard := { x := 16, y := 16 }, ships := [west_ship, east_ship] }

/-! ## Spawn gate: C2, C3 -/

theorem returning_nearby_foldl (game_map : GameMap) (me : Player) (is_returning : FlagMap)
    (l : List Ship) (k : Int) :
    l.foldl
      (fun n s =>
        if is_returning.get s.id then
          (if game_map.calculate_distance s.position me.shipyard < 4 then n + 1 else n)
        else n) k
      = k + ((l.filter (near_returning game_map me is_returning)).length : Int) := by
  induction l generalizing k with
  | nil => simp
  | cons s l ih =>
    rw [List.foldl_cons, ih]
    by_cases h1 : is_returning.get s.id = true
    · by_cases h2 : game_map.calculate_distance s.position me.shipyard < 4
      · simp [near_returning, List.filter_cons, h1, h2]; ring
      · simp [near_returning, List.filter_cons, h1, h2]
    · simp [near_returning, List.filter_cons, h1]

theorem returning_nearby_eq (game_map : GameMap) (me : Player) (is_returning : FlagMap)
    (l : List Ship) :
    returning_nearby game_map me is_returning l
      = ((l.filter (near_returning game_map me is_returning)).length : Int) := by
  unfold returning_nearby
  rw [returning_nearby_foldl]
  simp

theorem should_spawn_eq_true_iff (c : Constants) (turn_number : Int) (me : Player)
    (game_map : GameMap) (occupied_indices : List Int) (is_returning : FlagMap)
    (my_ships : List Ship) :
    should_spawn c turn_number me game_map occupied_indices is_returning my_ships = true ↔
      ((my_ships.length : Int) < ship_cap game_map
        ∧ turn_number ≤ c.MAX_TURNS - stop_buffer game_map
        ∧ c.SHIP_COST + reserve turn_number ≤ me.halite
        ∧ cell_index game_map me.shipyard ∉ occupied_indices
        ∧ game_map.is_occupied me.shipyard = false
        ∧ returning_nearby game_map me is_returning my_ships ≤ cap_returning_nearby) := by
  unfold should_spawn
  simp only [ge_iff_le, gt_iff_lt]
  split_ifs <;> simp_all

/-- C2. `should_spawn` returns true exactly when the five conditions hold together: the
unit count is below `max(8, area / 75)` (truncated integer division); the turn number is at
most `MAX_TURNS - stop_buffer` with `stop_buffer` 80 for `area ≤ 1600` and 110 otherwise;
the available resource is at least `SHIP_COST + reserve` with `reserve` 500 before turn 50,
280 before turn 120 and 125 afterwards; the base cell is neither in the claimed-cell set nor
occupied on the map; at most 2 returning units are at distance `< 4` from the base.
Scenario: on a 32x32 map at turn 10 (with `MAX_TURNS ≥ 90`), 5 units, resource 1200, unit
cost 500, base free and no returning unit nearby, the gate returns true. -/
theorem should_spawn_iff_five_conditions :
    (∀ (c : Constants) (turn_number : Int) (me : Player) (game_map : GameMap)
        (occupied_indices : List Int) (is_returning : FlagMap) (my_ships : List Ship),
      should_spawn c turn_number me game_map occupied_indices is_returning my_ships = true ↔
        ((my_ships.length : Int)
            < max 8 ((game_map.width * game_map.height).tdiv 75)
          ∧ turn_number ≤ c.MAX_TURNS
              - (if game_map.width * game_map.height ≤ 1600 then 80 else 110)
          ∧ me.halite ≥ c.SHIP_COST
              + (if turn_number < 50 then 500 else if turn_number < 120 then 280 else 125)
          ∧ (cell_index game_map me.shipyard ∉ occupied_indices
              ∧ game_map.is_occupied me.shipyard = false)
          ∧ (my_ships.filter (fun s =>
                is_returning.get s.id
                  && decide (game_map.calculate_distance s.position me.shipyard < 4))).length
              ≤ 2))
    ∧ (∀ (c : Constants) (me : Player) (game_map : GameMap)
        (occupied_indices : List Int) (is_returning : FlagMap) (my_ships : List Ship),
      game_map.width = 32 → game_map.height = 32 → 90 ≤ c.MAX_TURNS →
      my_ships.length = 5 → me.halite = 1200 → c.SHIP_COST = 500 →
      cell_index game_map me.shipyard ∉ occupied_indices →
      game_map.is_occupied me.shipyard = false →
      (∀ s ∈ my_ships, is_returning.get s.id = true →
        ¬ game_map.calculate_distance s.position me.shipyard < 4) →
      should_spawn c 10 me game_map occupied_indices is_returning my_ships = true) := by
  constructor
  · intro c turn_number me game_map occupied_indices is_returning my_ships
    rw [should_spawn_eq_true_iff, returning_nearby_eq]
    have hf : (fun s : Ship =>
        is_returning.get s.id
          && decide (game_map.calculate_distance s.position me.shipyard < 4))
        = near_returning game_map me is_returning := by
      funext s; rfl
    rw [hf]
    simp only [ship_cap, stop_buffer, reserve, divisor_spawn, cap_returning_nearby, ge_iff_le]
    constructor
    · rintro ⟨h1, h2, h3, h4, h5, h6⟩
      exact ⟨h1, h2, h3, ⟨h4, h5⟩, by exact_mod_cast h6⟩
    · rintro ⟨h1, h2, h3, ⟨h4, h5⟩, h6⟩
      exact ⟨h1, h2, h3, h4, h5, by exact_mod_cast h6⟩
  · intro c me game_map occupied_indices is_returning my_ships hw hh hT hlen hhal hcost
      hfree hocc hnear
    rw [should_spawn_eq_true_iff, returning_nearby_eq]
    have hnil : my_ships.filter (near_returning game_map me is_returning) = [] := by
      rw [List.filter_eq_nil_iff]
      intro s hs
      simp only [near_returning, Bool.and_eq_true, decide_eq_true_eq, not_and]
      exact hnear s hs
    rw [hnil]
    simp only [ship_cap, stop_buffer, reserve, divisor_spawn, cap_returning_nearby, hw, hh,
      hlen, hhal, hcost]
    refine ⟨by decide, ?_, by decide, hfree, hocc, by decide⟩
    have : ((32 : Int) * 32 ≤ 1600) := by decide
    rw [if_pos this]
    omega

/-- C3. Spawn cap respected: `should_spawn` returns false whenever the owned unit count is
at least `max(8, area / 75)` (truncated integer division), whatever the other inputs; on a
map of area 1024 the cap is 13, so 14 owned units give false. -/
theorem spawn_cap_respected :
    (∀ (c : Constants) (turn_number : Int) (me : Player) (game_map : GameMap)
        (occupied_indices : List Int) (is_returning : FlagMap) (my_ships : List Ship),
      (my_ships.length : Int) ≥ max 8 ((game_map.width * game_map.height).tdiv 75) →
      should_spawn c turn_number me game_map occupied_indices is_returning my_ships = false)
    ∧ (∀ (c : Constants) (turn_number : Int) (me : Player) (game_map : GameMap)
        (occupied_indices : List Int) (is_returning : FlagMap) (my_ships : List Ship),
      game_map.width * game_map.height = 1024 → my_ships.length = 14 →
      max 8 ((game_map.width * game_map.height).tdiv 75) = 13
        ∧ should_spawn c turn_number me game_map occupied_indices is_returning my_ships
            = false) := by
  have key : ∀ (c : Constants) (turn_number : Int) (me : Player) (game_map : GameMap)
      (occupied_indices : List Int) (is_returning : FlagMap) (my_ships : List Ship),
      (my_ships.length : Int) ≥ max 8 ((game_map.width * game_map.height).tdiv 75) →
      should_spawn c turn_number me game_map occupied_indices is_returning my_ships
        = false := by
    intro c turn_number me game_map occupied_indices is_returning my_ships h
    unfold should_spawn
    have h2 : (my_ships.length : Int) ≥ ship_cap game_map := by
      simpa [ship_cap, divisor_spawn] using h
    simp only [h2, if_true]
  refine ⟨key, ?_⟩
  intro c turn_number me game_map occupied_indices is_returning my_ships harea hlen
  have hcap : max 8 ((game_map.width * game_map.height).tdiv 75) = 13 := by
    rw [harea]; decide
  refine ⟨hcap, key c turn_number me game_map occupied_indices is_returning my_ships ?_⟩
  rw [hcap, hlen]; decide

theorem should_spawn_iff_five_conditions_witness :
    should_spawn sample_constants 10 (sample_player 5) empty_map [] FlagMap.empty
      (sample_player 5).ships = true :=
  should_spawn_iff_five_conditions.2 sample_constants (sample_player 5) empty_map []
    FlagMap.empty (sample_player 5).ships rfl rfl (by decide) rfl rfl rfl (by simp) rfl
    (by intro s _ h; simp [FlagMap.get, FlagMap.empty] at h)

theorem spawn_cap_respected_witness :
    ((sample_player 14).ships.length : Int)
        ≥ max 8 ((empty_map.width * empty_map.height).tdiv 75)
      ∧ should_spawn sample_constants 10 (sample_player 14) empty_map [] FlagMap.empty
          (sample_player 14).ships = false :=
  ⟨by decide,
   spawn_cap_respected.1 sample_constants 10 (sample_player 14) empty_map [] FlagMap.empty
     (sample_player 14).ships (by decide)⟩

/-! ## State update: C4, C5 -/

theorem ninety_percent_iff (h M : Int) :
    ((h : ℚ) ≥ (M : ℚ) * (9 / 10)) ↔ 10 * h ≥ 9 * M := by
  constructor
  · intro hq
    have h1 : (9 : ℚ) * (M : ℚ) ≤ 10 * (h : ℚ) := by linarith
    exact_mod_cast h1
  · intro hi
    have h1 : (9 : ℚ) * (M : ℚ) ≤ 10 * (h : ℚ) := by exact_mod_cast hi
    linarith

theorem update_state_other (c : Constants) (me : Player) (endgame : Bool) (m : FlagMap)
    (ship : Ship) (k : Int) (hk : k ≠ ship.id) :
    update_state c me endgame m ship k = m k := by
  unfold update_state
  split_ifs <;> simp [FlagMap.set, hk]

theorem update_state_endgame_self (c : Constants) (me : Player) (m : FlagMap) (ship : Ship) :
    update_state c me true m ship ship.id = some true := by
  unfold update_state
  simp [FlagMap.set]

theorem update_state_endgame_keeps (c : Constants) (me : Player) (m : FlagMap) (ship : Ship)
    (k : Int) (hk : m k = some true) :
    update_state c me true m ship k = some true := by
  by_cases h : k = ship.id
  · rw [h]; exact update_state_endgame_self c me m ship
  · rw [update_state_other c me true m ship k h]; exact hk

theorem update_states_endgame_keeps (c : Constants) (me : Player) (l : List Ship) :
    ∀ (m : FlagMap) (k : Int), m k = some true →
      update_states c me true m l k = some true := by
  induction l with
  | nil => intro m k hk; exact hk
  | cons a l ih =>
    intro m k hk
    exact ih (update_state c me true m a) k (update_state_endgame_keeps c me m a k hk)

theorem update_states_endgame_mem (c : Constants) (me : Player) (l : List Ship) :
    ∀ (m : FlagMap) (s : Ship), s ∈ l → update_states c me true m l s.id = some true := by
  induction l with
  | nil => intro m s hs; cases hs
  | cons a l ih =>
    intro m s hs
    rcases List.mem_cons.mp hs with h | h
    · subst h
      exact update_states_endgame_keeps c me l (update_state c me true m s) s.id
        (update_state_endgame_self c me m s)
    · exact ih (update_state c me true m a) s h

/-- C4. Outside endgame mode the state update of one unit computes the new returning flag
as follows, the old flag being false for an id without entry: when the old flag is true the
new flag is false exactly when the unit stands on the base position (and stays true
otherwise); when the old flag is false the new flag is true exactly when
`10 * carried ≥ 9 * MAX_HALITE` (and stays false otherwise). In particular a returning unit
standing on the base has its flag cleared. The unit has an entry after the update. -/
theorem returning_flag_update (c : Constants) (me : Player) (m : FlagMap) (ship : Ship) :
    (m ship.id = none → m.get ship.id = false)
    ∧ update_state c me false m ship ship.id
        = some ((update_state c me false m ship).get ship.id)
    ∧ (m.get ship.id = true →
        ((update_state c me false m ship).get ship.id = false
          ↔ ship.position = me.shipyard))
    ∧ (m.get ship.id = false →
        ((update_state c me false m ship).get ship.id = true
          ↔ 10 * ship.halite ≥ 9 * c.MAX_HALITE))
    ∧ (m.get ship.id = true → ship.position = me.shipyard →
        (update_state c me false m ship).get ship.id = false) := by
  have hq := ninety_percent_iff ship.halite c.MAX_HALITE
  unfold update_state
  cases hm : m ship.id with
  | none =>
    by_cases h9 : 10 * ship.halite ≥ 9 * c.MAX_HALITE
    · have h9q := hq.mpr h9
      simp [FlagMap.get, FlagMap.set, hm, h9, h9q]
    · have h9q : ¬ ((ship.halite : ℚ) ≥ (c.MAX_HALITE : ℚ) * (9 / 10)) := fun h => h9 (hq.mp h)
      simp [FlagMap.get, FlagMap.set, hm, h9, h9q]
  | some b =>
    cases b with
    | true =>
      by_cases hp : ship.position = me.shipyard
      · simp [FlagMap.get, FlagMap.set, hm, hp]
      · simp [FlagMap.get, FlagMap.set, hm, hp]
    | false =>
      by_cases h9 : 10 * ship.halite ≥ 9 * c.MAX_HALITE
      · have h9q := hq.mpr h9
        simp [FlagMap.get, FlagMap.set, hm, h9, h9q]
      · have h9q : ¬ ((ship.halite : ℚ) ≥ (c.MAX_HALITE : ℚ) * (9 / 10)) :=
          fun h => h9 (hq.mp h)
        simp [FlagMap.get, FlagMap.set, hm, h9, h9q]

theorem returning_flag_update_witness :
    (FlagMap.empty.set 0 true).get 0 = true
      ∧ (update_state sample_constants (sample_player 1) false (FlagMap.empty.set 0 true)
          { id := 0, position := { x := 16, y := 16 }, halite := 40 }).get 0 = false :=
  ⟨rfl,
   (returning_flag_update sample_constants (sample_player 1) (FlagMap.empty.set 0 true)
      { id := 0, position := { x := 16, y := 16 }, halite := 40 }).2.2.2.2 rfl rfl⟩

theorem update_turns_snoc (c : Constants) (m : FlagMap) (snaps : List Snapshot)
    (snap : Snapshot) :
    update_turns c m (snaps ++ [snap]) = update_turn c (update_turns c m snaps) snap := by
  simp [update_turns, List.foldl_append]

/-- C5. Endgame override: along a sequence of snapshots with non-decreasing turn numbers,
once the turn number of snapshot `i` exceeds `MAX_TURNS - 30`, for that snapshot and every
later snapshot `j` each unit present in snapshot `j` has its returning flag equal to true
after the state update of turn `j`, whatever the initial mapping, and whatever the position
and cargo of the unit. -/
theorem endgame_override (c : Constants) (m0 : FlagMap) (snaps : List Snapshot)
    (hmono : snaps.Pairwise (fun a b => a.turn_number ≤ b.turn_number))
    (i j : Nat) (hij : i ≤ j) (hj : j < snaps.length)
    (hend : (snaps.get ⟨i, lt_of_le_of_lt hij hj⟩).turn_number > c.MAX_TURNS - 30)
    (s : Ship) (hs : s ∈ (snaps.get ⟨j, hj⟩).me.ships) :
    update_turns c m0 (snaps.take (j + 1)) s.id = some true
      ∧ (update_turns c m0 (snaps.take (j + 1))).get s.id = true := by
  have hle : (snaps.get ⟨i, lt_of_le_of_lt hij hj⟩).turn_number
      ≤ (snaps.get ⟨j, hj⟩).turn_number := by
    rcases Nat.eq_or_lt_of_le hij with h | h
    · subst h; exact le_refl _
    · exact (List.pairwise_iff_get.mp hmono) ⟨i, lt_of_le_of_lt hij hj⟩ ⟨j, hj⟩ h
  have hmode : end_game_mode c (snaps.get ⟨j, hj⟩).turn_number = true := by
    simp only [end_game_mode, decide_eq_true_eq]
    omega
  have htake : snaps.take (j + 1) = snaps.take j ++ [snaps.get ⟨j, hj⟩] := by
    rw [List.take_succ, List.getElem?_eq_getElem hj]
    rfl
  have hmain : update_turns c m0 (snaps.take (j + 1)) s.id = some true := by
    rw [htake, update_turns_snoc]
    unfold update_turn
    rw [hmode]
    exact update_states_endgame_mem c _ _ _ s hs
  exact ⟨hmain, by simp [FlagMap.get, hmain]⟩

theorem endgame_override_witness :
    update_turns sample_constants FlagMap.empty (sample_snapshots.take (1 + 1)) (idle_ship 0).id
        = some true
      ∧ (update_turns sample_constants FlagMap.empty (sample_snapshots.take (1 + 1))).get
          (idle_ship 0).id = true :=
  endgame_override sample_constants FlagMap.empty sample_snapshots
    (by simp [sample_snapshots]) 0 1 (by decide) (by decide) (by decide) (idle_ship 0)
    (by simp [sample_snapshots, sample_player])

/-! ## Ordering: C6 -/

theorem ship_before_iff (flags : FlagMap) (a b : Ship) :
    ship_before flags a b = true ↔
      (flags.get a.id = true ∧ flags.get b.id = false)
        ∨ (flags.get a.id = flags.get b.id ∧ a.halite > b.halite) := by
  unfold ship_before
  cases flags.get a.id <;> cases flags.get b.id <;> simp

theorem ship_order_iff (flags : FlagMap) (a b : Ship) :
    ship_order flags a b ↔
      ¬ (flags.get b.id = true ∧ flags.get a.id = false)
        ∧ (flags.get a.id = flags.get b.id → b.halite ≤ a.halite) := by
  unfold ship_order
  rw [← Bool.not_eq_true, ship_before_iff]
  cases flags.get a.id <;> cases flags.get b.id <;> simp

theorem ship_order_total (flags : FlagMap) (a b : Ship) :
    ship_order flags a b ∨ ship_order flags b a := by
  rw [ship_order_iff, ship_order_iff]
  cases flags.get a.id <;> cases flags.get b.id <;> simp <;> omega

theorem ship_order_trans (flags : FlagMap) (a b d : Ship)
    (hab : ship_order flags a b) (hbd : ship_order flags b d) : ship_order flags a d := by
  rw [ship_order_iff] at *
  revert hab hbd
  cases flags.get a.id <;> cases flags.get b.id <;> cases flags.get d.id <;> simp <;> omega

theorem sort_ships_sorted (flags : FlagMap) (l : List Ship) :
    (sort_ships flags l).Pairwise (ship_order flags) := by
  haveI : IsTotal Ship (ship_order flags) := ⟨ship_order_total flags⟩
  haveI : IsTrans Ship (ship_order flags) := ⟨ship_order_trans flags⟩
  exact List.sorted_insertionSort (ship_order flags) l

theorem sort_ships_perm (flags : FlagMap) (l : List Ship) :
    (sort_ships flags l).Perm l :=
  List.perm_insertionSort (ship_order flags) l

/-- C6. Unit ordering: the list processed by the decision loop is a permutation of the
units of the snapshot in which no non-returning unit stands before a returning one and in
which, among units with the same flag, carried resource is non-increasing along the list;
the comparator (returning first, then higher carried resource) is a strict weak ordering:
irreflexive, asymmetric, transitive, with transitive incomparability. -/
theorem unit_ordering (c : Constants) (turn_number : Int) (me : Player) (game_map : GameMap)
    (m0 : FlagMap) :
    ((turn c turn_number me game_map m0).my_ships.Perm me.ships
      ∧ (turn c turn_number me game_map m0).my_ships.Pairwise (fun a b =>
          ¬ ((turn c turn_number me game_map m0).is_returning.get a.id = false
              ∧ (turn c turn_number me game_map m0).is_returning.get b.id = true))
      ∧ (turn c turn_number me game_map m0).my_ships.Pairwise (fun a b =>
          (turn c turn_number me game_map m0).is_returning.get a.id
              = (turn c turn_number me game_map m0).is_returning.get b.id →
            a.halite ≥ b.halite))
    ∧ ((∀ (flags : FlagMap) (a : Ship), ship_before flags a a = false)
      ∧ (∀ (flags : FlagMap) (a b : Ship),
          ship_before flags a b = true → ship_before flags b a = false)
      ∧ (∀ (flags : FlagMap) (a b d : Ship),
          ship_before flags a b = true → ship_before flags b d = true →
            ship_before flags a d = true)
      ∧ (∀ (flags : FlagMap) (a b d : Ship),
          ship_before flags a b = false → ship_before flags b a = false →
          ship_before flags b d = false → ship_before flags d b = false →
            ship_before flags a d = false ∧ ship_before flags d a = false)) := by
  refine ⟨⟨?_, ?_, ?_⟩, ?_, ?_, ?_, ?_⟩
  · exact sort_ships_perm _ _
  · refine (sort_ships_sorted _ me.ships).imp ?_
    intro a b hab
    rw [ship_order_iff] at hab
    intro h
    exact hab.1 ⟨h.2, h.1⟩
  · refine (sort_ships_sorted _ me.ships).imp ?_
    intro a b hab
    rw [ship_order_iff] at hab
    intro h
    exact hab.2 h
  · intro flags a
    rw [← Bool.not_eq_true, ship_before_iff]
    simp
  · intro flags a b
    rw [← Bool.not_eq_true, ship_before_iff, ship_before_iff]
    cases flags.get a.id <;> cases flags.get b.id <;> simp <;> omega
  · intro flags a b d
    rw [ship_before_iff, ship_before_iff, ship_before_iff]
    cases flags.get a.id <;> cases flags.get b.id <;> cases flags.get d.id <;> simp <;> omega
  · intro flags a b d
    rw [← Bool.not_eq_true, ← Bool.not_eq_true, ← Bool.not_eq_true, ← Bool.not_eq_true,
      ← Bool.not_eq_true, ← Bool.not_eq_true]
    simp only [ship_before_iff]
    cases flags.get a.id <;> cases flags.get b.id <;> cases flags.get d.id <;> simp <;> omega

theorem unit_ordering_witness :
    ship_before FlagMap.empty { id := 1, position := { x := 0, y := 0 }, halite := 7 }
        { id := 2, position := { x := 1, y := 0 }, halite := 3 } = true
      ∧ ship_before FlagMap.empty { id := 2, position := { x := 1, y := 0 }, halite := 3 }
          { id := 1, position := { x := 0, y := 0 }, halite := 7 } = false :=
  ⟨by decide,
   (unit_ordering sample_constants 10 (sample_player 2) empty_map FlagMap.empty).2.2.1
     FlagMap.empty { id := 1, position := { x := 0, y := 0 }, halite := 7 }
     { id := 2, position := { x := 1, y := 0 }, halite := 3 } (by decide)⟩

/-! ## Target selection: C7, C8 -/

theorem move_cost_eq_floor (c : Constants) (game_map : GameMap) (ship : Ship)
    (hres : 0 ≤ game_map.halite ship.position) (hratio : 0 < c.MOVE_COST_RATIO) :
    move_cost c game_map ship
      = ⌊(game_map.halite ship.position : ℚ) / (c.MOVE_COST_RATIO : ℚ)⌋ := by
  unfold move_cost
  rw [Int.tdiv_eq_ediv hres (le_of_lt hratio)]
  obtain ⟨n, hn⟩ := Int.eq_ofNat_of_zero_le (le_of_lt hratio)
  rw [hn]
  have h := Rat.floor_intCast_div_natCast (game_map.halite ship.position) n
  rw [← h]
  simp

theorem scan_foldl_spec (c : Constants) (game_map : GameMap) (ship : Ship)
    (l : List Direction) :
    ∀ (m : ℚ) (p : Position),
      ((∀ d ∈ l, gain_move c game_map ship d ≤ m) →
          l.foldl (scan_step c game_map ship) (m, p) = (m, p))
      ∧ ((∃ d ∈ l, gain_move c game_map ship d > m) →
          ∃ pre d post, l = pre ++ d :: post
            ∧ (∀ e ∈ pre, gain_move c game_map ship e < gain_move c game_map ship d)
            ∧ (∀ e ∈ post, gain_move c game_map ship e ≤ gain_move c game_map ship d)
            ∧ m < gain_move c game_map ship d
            ∧ l.foldl (scan_step c game_map ship) (m, p)
                = (gain_move c game_map ship d,
                    directional_offset game_map ship.position d)) := by
  induction l with
  | nil =>
    intro m p
    exact ⟨fun _ => rfl, fun ⟨d, hd, _⟩ => by cases hd⟩
  | cons a l ih =>
    intro m p
    by_cases ha : gain_move c game_map ship a > m
    · have hstep : scan_step c game_map ship (m, p) a
          = (gain_move c game_map ship a, directional_offset game_map ship.position a) := by
        simp [scan_step, ha]
      have ih2 := ih (gain_move c game_map ship a)
        (directional_offset game_map ship.position a)
      constructor
      · intro hall
        exact absurd (hall a (List.mem_cons_self a l)) (not_le.mpr ha)
      · intro _
        rw [List.foldl_cons, hstep]
        by_cases hex : ∃ d ∈ l, gain_move c game_map ship d > gain_move c game_map ship a
        · obtain ⟨pre, d, post, hl, hpre, hpost, hlt, hres⟩ := ih2.2 hex
          refine ⟨a :: pre, d, post, by rw [hl]; rfl, ?_, hpost, lt_trans ha hlt, hres⟩
          intro e he
          rcases List.mem_cons.mp he with h | h
          · rw [h]; exact hlt
          · exact hpre e h
        · have hall : ∀ d ∈ l, gain_move c game_map ship d ≤ gain_move c game_map ship a := by
            intro d hd
            by_contra hcon
            exact hex ⟨d, hd, not_le.mp hcon⟩
          refine ⟨[], a, l, rfl, ?_, hall, ha, ih2.1 hall⟩
          intro e he
          cases he
    · have hstep : scan_step c game_map ship (m, p) a = (m, p) := by
        simp [scan_step, ha]
      have ih2 := ih m p
      constructor
      · intro hall
        rw [List.foldl_cons, hstep]
        exact ih2.1 (fun d hd => hall d (List.mem_cons_of_mem a hd))
      · rintro ⟨d, hd, hgt⟩
        rw [List.foldl_cons, hstep]
        have hdl : d ∈ l := by
          rcases List.mem_cons.mp hd with h | h
          · rw [h] at hgt; exact absurd hgt ha
          · exact h
        obtain ⟨pre, d2, post, hl, hpre, hpost, hlt, hres⟩ := ih2.2 ⟨d, hdl, hgt⟩
        refine ⟨a :: pre, d2, post, by rw [hl]; rfl, ?_, hpost, hlt, hres⟩
        intro e he
        rcases List.mem_cons.mp he with h | h
        · rw [h]; exact lt_of_le_of_lt (not_lt.mp ha) hlt
        · exact hpre e h

/-- C7. Target selection for a non-returning unit that can afford to move, on a cell with
non-negative resource and with a positive move cost ratio. With move cost
`c = floor(cell resource / ratio)`, `gain_stay = cell resource / 4` and
`gain(n) = resource(n) / 4 - c` for the four cardinal neighbours (exact rationals): when
some neighbour has `gain(n) > 1.2 * gain_stay`, the target is the first neighbour in
enumeration order attaining the maximum gain (every earlier one has a strictly smaller gain,
every later one a gain not larger), and that maximum exceeds `1.2 * gain_stay`; when no
neighbour has `gain(n) > 1.2 * gain_stay`, the target is the current position. -/
theorem target_selection (c : Constants) (game_map : GameMap) (me : Player)
    (is_returning : FlagMap) (ship : Ship)
    (hres : 0 ≤ game_map.halite ship.position) (hratio : 0 < c.MOVE_COST_RATIO)
    (hflag : is_returning.get ship.id = false)
    (hcan : ship.halite
      ≥ ⌊(game_map.halite ship.position : ℚ) / (c.MOVE_COST_RATIO : ℚ)⌋) :
    ((∃ d ∈ ALL_CARDINALS,
        (game_map.halite (directional_offset game_map ship.position d) : ℚ) / 4
            - (⌊(game_map.halite ship.position : ℚ) / (c.MOVE_COST_RATIO : ℚ)⌋ : ℚ)
          > (6 / 5) * ((game_map.halite ship.position : ℚ) / 4)) →
      ∃ pre d post, ALL_CARDINALS = pre ++ d :: post
        ∧ (∀ e ∈ pre,
            (game_map.halite (directional_offset game_map ship.position e) : ℚ) / 4
                - (⌊(game_map.halite ship.position : ℚ) / (c.MOVE_COST_RATIO : ℚ)⌋ : ℚ)
              < (game_map.halite (directional_offset game_map ship.position d) : ℚ) / 4
                - (⌊(game_map.halite ship.position : ℚ) / (c.MOVE_COST_RATIO : ℚ)⌋ : ℚ))
        ∧ (∀ e ∈ post,
            (game_map.halite (directional_offset game_map ship.position e) : ℚ) / 4
                - (⌊(game_map.halite ship.position : ℚ) / (c.MOVE_COST_RATIO : ℚ)⌋ : ℚ)
              ≤ (game_map.halite (directional_offset game_map ship.position d) : ℚ) / 4
                - (⌊(game_map.halite ship.position : ℚ) / (c.MOVE_COST_RATIO : ℚ)⌋ : ℚ))
        ∧ (game_map.halite (directional_offset game_map ship.position d) : ℚ) / 4
            - (⌊(game_map.halite ship.position : ℚ) / (c.MOVE_COST_RATIO : ℚ)⌋ : ℚ)
          > (6 / 5) * ((game_map.halite ship.position : ℚ) / 4)
        ∧ target_pos c game_map me is_returning ship
            = directional_offset game_map ship.position d)
    ∧ ((∀ d ∈ ALL_CARDINALS,
        (game_map.halite (directional_offset game_map ship.position d) : ℚ) / 4
            - (⌊(game_map.halite ship.position : ℚ) / (c.MOVE_COST_RATIO : ℚ)⌋ : ℚ)
          ≤ (6 / 5) * ((game_map.halite ship.position : ℚ) / 4)) →
      target_pos c game_map me is_returning ship = ship.position) := by
  have hmc := move_cost_eq_floor c game_map ship hres hratio
  have hcm : can_move c game_map ship = true := by
    simp only [can_move, decide_eq_true_eq, hmc]; exact hcan
  have hg : ∀ d, gain_move c game_map ship d
      = (game_map.halite (directional_offset game_map ship.position d) : ℚ) / 4
        - (⌊(game_map.halite ship.position : ℚ) / (c.MOVE_COST_RATIO : ℚ)⌋ : ℚ) := by
    intro d
    simp only [gain_move, hmc]; ring
  have hs : gain_stay game_map ship * (6 / 5)
      = (6 / 5) * ((game_map.halite ship.position : ℚ) / 4) := by
    simp only [gain_stay]; ring
  have hs0 : (0 : ℚ) ≤ (6 / 5) * ((game_map.halite ship.position : ℚ) / 4) := by
    have : (0 : ℚ) ≤ (game_map.halite ship.position : ℚ) := by exact_mod_cast hres
    positivity
  have htarget : target_pos c game_map me is_returning ship
      = if (scan_neighbors c game_map ship).1
            > (6 / 5) * ((game_map.halite ship.position : ℚ) / 4)
        then (scan_neighbors c game_map ship).2 else ship.position := by
    simp only [target_pos, hcm, hflag, hs]
    simp
  have hscan := scan_foldl_spec c game_map ship ALL_CARDINALS (-1) ship.position
  constructor
  · rintro ⟨d, hd, hgt⟩
    have hex : ∃ d ∈ ALL_CARDINALS, gain_move c game_map ship d > -1 :=
      ⟨d, hd, by rw [hg]; linarith⟩
    obtain ⟨pre, d2, post, hl, hpre, hpost, _, hres2⟩ := hscan.2 hex
    have hd2 : gain_move c game_map ship d ≤ gain_move c game_map ship d2 := by
      rw [hl] at hd
      rcases List.mem_append.mp hd with h | h
      · exact le_of_lt (hpre d h)
      · rcases List.mem_cons.mp h with h | h
        · rw [h]
        · exact hpost d h
    have hbig : gain_move c game_map ship d2
        > (6 / 5) * ((game_map.halite ship.position : ℚ) / 4) := by
      rw [hg] at hd2; rw [hg d2]; rw [hg d2] at hd2; linarith
    refine ⟨pre, d2, post, hl, ?_, ?_, ?_, ?_⟩
    · intro e he
      have := hpre e he
      rw [hg, hg] at this; exact this
    · intro e he
      have := hpost e he
      rw [hg, hg] at this; exact this
    · rw [← hg d2]; exact hbig
    · rw [htarget]
      unfold scan_neighbors
      rw [hres2]
      simp only [hbig, if_true]
  · intro hall
    rw [htarget]
    by_cases hex : ∃ d ∈ ALL_CARDINALS, gain_move c game_map ship d > -1
    · obtain ⟨pre, d2, post, hl, _, _, _, hres2⟩ := hscan.2 hex
      have hd2mem : d2 ∈ ALL_CARDINALS := by rw [hl]; simp
      have hle := hall d2 hd2mem
      unfold scan_neighbors
      rw [hres2]
      have : ¬ (gain_move c game_map ship d2
          > (6 / 5) * ((game_map.halite ship.position : ℚ) / 4)) := by
        rw [hg d2]; exact not_lt.mpr hle
      simp only [this, if_false]
    · have hall2 : ∀ d ∈ ALL_CARDINALS, gain_move c game_map ship d ≤ -1 := by
        intro d hd
        by_contra hcon
        exact hex ⟨d, hd, not_le.mp hcon⟩
      unfold scan_neighbors
      rw [hscan.1 hall2]
      have : ¬ ((-1 : ℚ) > (6 / 5) * ((game_map.halite ship.position : ℚ) / 4)) := by
        linarith
      simp only [this, if_false]

theorem target_selection_witness :
    move_cost sample_constants rich_map miner = 10
      ∧ gain_stay rich_map miner = 25
      ∧ gain_move sample_constants rich_map miner Direction.NORTH = 40
      ∧ target_pos sample_constants rich_map (sample_player 0) FlagMap.empty miner
          = { x := 5, y := 4 }
      ∧ ∃ pre d post, ALL_CARDINALS = pre ++ d :: post
        ∧ (∀ e ∈ pre,
            (rich_map.halite (directional_offset rich_map miner.position e) : ℚ) / 4
                - (⌊(rich_map.halite miner.position : ℚ)
                    / (sample_constants.MOVE_COST_RATIO : ℚ)⌋ : ℚ)
              < (rich_map.halite (directional_offset rich_map miner.position d) : ℚ) / 4
                - (⌊(rich_map.halite miner.position : ℚ)
                    / (sample_constants.MOVE_COST_RATIO : ℚ)⌋ : ℚ))
        ∧ (∀ e ∈ post,
            (rich_map.halite (directional_offset rich_map miner.position e) : ℚ) / 4
                - (⌊(rich_map.halite miner.position : ℚ)
                    / (sample_constants.MOVE_COST_RATIO : ℚ)⌋ : ℚ)
              ≤ (rich_map.halite (directional_offset rich_map miner.position d) : ℚ) / 4
                - (⌊(rich_map.halite miner.position : ℚ)
                    / (sample_constants.MOVE_COST_RATIO : ℚ)⌋ : ℚ))
        ∧ (rich_map.halite (directional_offset rich_map miner.position d) : ℚ) / 4
            - (⌊(rich_map.halite miner.position : ℚ)
                / (sample_constants.MOVE_COST_RATIO : ℚ)⌋ : ℚ)
          > (6 / 5) * ((rich_map.halite miner.position : ℚ) / 4)
        ∧ target_pos sample_constants rich_map (sample_player 0) FlagMap.empty miner
            = directional_offset rich_map miner.position d := by
  have hres : 0 ≤ rich_map.halite miner.position := by decide
  have hratio : 0 < sample_constants.MOVE_COST_RATIO := by decide
  have hfl := move_cost_eq_floor sample_constants rich_map miner hres hratio
  have hmc : move_cost sample_constants rich_map miner = 10 := by decide
  have hN : rich_map.halite (directional_offset rich_map miner.position Direction.NORTH)
      = 200 := by decide
  have hC : rich_map.halite miner.position = 100 := by decide
  refine ⟨hmc, ?_, ?_, ?_, ?_⟩
  · simp only [gain_stay, hC]; norm_num
  · simp only [gain_move, hN, hmc]; norm_num
  · have h10 : Int.tdiv 100 10 = 10 := by decide
    simp [target_pos, can_move, move_cost, scan_neighbors, scan_step, gain_move, gain_stay,
      ALL_CARDINALS, directional_offset, rich_map, miner, sample_constants, sample_neighbor,
      FlagMap.get, FlagMap.empty, h10]
    norm_num
  · refine (target_selection sample_constants rich_map (sample_player 0) FlagMap.empty miner
      hres hratio rfl ?_).1 ⟨Direction.NORTH, by decide, ?_⟩
    · rw [← hfl, hmc]; decide
    · rw [← hfl, hmc, hN, hC]; norm_num

/-- C8 as stated fails: at turn 480 of 500 (endgame mode) the state update sets the flag of
the ship `stranded`, which carries 0 on a cell with resource 100 (move cost 10); its target
is its own cell `(5, 5)`, not the base `(16, 16)`. -/
theorem returning_target_counterexample :
    (turn sample_constants 480 stranded_player rich_map FlagMap.empty).is_returning.get
        stranded.id = true
      ∧ target_pos sample_constants rich_map stranded_player
          (turn sample_constants 480 stranded_player rich_map FlagMap.empty).is_returning
          stranded = { x := 5, y := 5 }
      ∧ target_pos sample_constants rich_map stranded_player
          (turn sample_constants 480 stranded_player rich_map FlagMap.empty).is_returning
          stranded ≠ stranded_player.shipyard := by
  refine ⟨by decide, by decide, by decide⟩

/-- C8 (amended). For every unit whose returning flag is true and that can afford to move
(carried resource at least the move cost), the target is the base position, whatever its
cargo, cell resource and position; a unit that cannot afford to move has its own position
as target, whatever its flag. -/
theorem returning_target (c : Constants) (game_map : GameMap) (me : Player)
    (is_returning : FlagMap) (ship : Ship) :
    (is_returning.get ship.id = true → ship.halite ≥ move_cost c game_map ship →
        target_pos c game_map me is_returning ship = me.shipyard)
    ∧ (ship.halite < move_cost c game_map ship →
        target_pos c game_map me is_returning ship = ship.position) := by
  constructor
  · intro hflag h
    have hcm : can_move c game_map ship = true := by
      simp only [can_move, decide_eq_true_eq]; exact h
    simp [target_pos, hcm, hflag]
  · intro h
    have hcm : can_move c game_map ship = false := by
      simp only [can_move, decide_eq_false_iff_not, not_le]; exact h
    simp [target_pos, hcm]

theorem returning_target_witness :
    ((FlagMap.empty.set 7 true).get miner.id = true
      ∧ miner.halite ≥ move_cost sample_constants rich_map miner
      ∧ target_pos sample_constants rich_map stranded_player (FlagMap.empty.set 7 true) miner
          = stranded_player.shipyard)
    ∧ (stranded.halite < move_cost sample_constants rich_map stranded
      ∧ target_pos sample_constants rich_map stranded_player FlagMap.empty stranded
          = stranded.position) :=
  ⟨⟨by decide, by decide,
    (returning_target sample_constants rich_map stranded_player (FlagMap.empty.set 7 true)
      miner).1 (by decide) (by decide)⟩,
   ⟨by decide,
    (returning_target sample_constants rich_map stranded_player FlagMap.empty
      stranded).2 (by decide)⟩⟩

/-! ## Pathfinding and command emission: C9, C10 -/

theorem path_move_cannot_move (c : Constants) (game_map : GameMap) (me : Player)
    (endgame : Bool) (is_returning : FlagMap) (occupied_indices : List Int) (ship : Ship)
    (hcant : can_move c game_map ship = false) :
    path_move c game_map me endgame is_returning occupied_indices ship = Direction.STILL := by
  unfold path_move
  simp [hcant]

/-- C9. Idempotent staying unit: a unit whose target equals its current position, that is
not on the base cell and that cannot afford to move (carried resource below the move cost)
gets `STILL` as final move, its own cell as final cell, and the decision loop appends a
stay command for it, whatever the claimed-cell set, the map, the flags and the mode. -/
theorem staying_unit_stays (c : Constants) (game_map : GameMap) (me : Player)
    (endgame : Bool) (is_returning : FlagMap) (st : LoopState) (ship : Ship)
    (_htarget : target_pos c game_map me is_returning ship = ship.position)
    (_hbase : ship.position ≠ me.shipyard)
    (hcant : ship.halite < move_cost c game_map ship) :
    (decide_ship c game_map me endgame is_returning st.occupied_indices ship).best_move
        = Direction.STILL
      ∧ (decide_ship c game_map me endgame is_returning st.occupied_indices ship).final_pos
        = ship.position
      ∧ (loop_step c game_map me endgame is_returning st ship).command_queue
        = st.command_queue ++ [Command.stay ship.id] := by
  have hcm : can_move c game_map ship = false := by
    simp only [can_move, decide_eq_false_iff_not, not_le]; exact hcant
  have hpath := path_move_cannot_move c game_map me endgame is_returning
    st.occupied_indices ship hcm
  have hsafe : safe_move c game_map me endgame is_returning st.occupied_indices ship
      = Direction.STILL := by
    unfold safe_move
    simp [hpath]
  have hbest :
      (decide_ship c game_map me endgame is_returning st.occupied_indices ship).best_move
        = Direction.STILL := by
    unfold decide_ship
    simp only [hsafe]
    split_ifs <;> rfl
  have hfinal :
      (decide_ship c game_map me endgame is_returning st.occupied_indices ship).final_pos
        = ship.position := by
    unfold decide_ship
    simp only [hsafe, directional_offset]
    split_ifs <;> rfl
  refine ⟨hbest, hfinal, ?_⟩
  unfold loop_step
  simp [hbest, command_of]

theorem staying_unit_stays_witness :
    target_pos sample_constants rich_map stranded_player FlagMap.empty stranded
        = stranded.position
      ∧ stranded.halite < move_cost sample_constants rich_map stranded
      ∧ (loop_step sample_constants rich_map stranded_player false FlagMap.empty
          { occupied_indices := [165], command_queue := [], final_positions := [] }
          stranded).command_queue = [] ++ [Command.stay stranded.id] :=
  ⟨by decide, by decide,
   (staying_unit_stays sample_constants rich_map stranded_player false FlagMap.empty
      { occupied_indices := [165], command_queue := [], final_positions := [] } stranded
      (by decide) (by decide) (by decide)).2.2⟩

theorem command_of_unit_command (s : Ship) (d : Direction) :
    unit_command s (command_of s d) := by
  unfold command_of unit_command
  by_cases h : d = Direction.STILL
  · left; simp [h]
  · right; exact ⟨d, h, by simp [h]⟩

theorem decision_loop_commands (c : Constants) (game_map : GameMap) (me : Player)
    (endgame : Bool) (is_returning : FlagMap) (ships : List Ship) :
    ∀ st : LoopState, ∃ cmds : List Command,
      List.Forall₂ unit_command ships cmds
        ∧ (ships.foldl (loop_step c game_map me endgame is_returning) st).command_queue
            = st.command_queue ++ cmds := by
  induction ships with
  | nil =>
    intro st
    exact ⟨[], List.Forall₂.nil, by simp⟩
  | cons s ships ih =>
    intro st
    obtain ⟨cmds, hf, hq⟩ := ih (loop_step c game_map me endgame is_returning st s)
    refine ⟨command_of s
      (decide_ship c game_map me endgame is_returning st.occupied_indices s).best_move
        :: cmds, List.Forall₂.cons (command_of_unit_command s _) hf, ?_⟩
    rw [List.foldl_cons, hq]
    simp [loop_step]

/-- C10. One command per unit: the command queue of a turn consists of exactly one unit
command (a stay or a move in a cardinal direction, carrying the id of the unit) for each
owned unit, in the sorted processing order, followed by exactly one spawn command when
`should_spawn` (evaluated on the claimed-cell set left by the decision loop) returns true
and by nothing otherwise; its length is the unit count or the unit count plus one. -/
theorem one_command_per_unit (c : Constants) (turn_number : Int) (me : Player)
    (game_map : GameMap) (m0 : FlagMap) :
    ∃ unit_cmds : List Command,
      List.Forall₂
          (fun (s : Ship) (cmd : Command) =>
            cmd = Command.stay s.id ∨ ∃ d, d ≠ Direction.STILL ∧ cmd = Command.move s.id d)
          (turn c turn_number me game_map m0).my_ships unit_cmds
        ∧ (turn c turn_number me game_map m0).command_queue
            = unit_cmds ++
              (if should_spawn c turn_number me game_map
                    (decision_loop c game_map me (end_game_mode c turn_number)
                      (turn c turn_number me game_map m0).is_returning
                      (turn c turn_number me game_map m0).my_ships).occupied_indices
                    (turn c turn_number me game_map m0).is_returning
                    (turn c turn_number me game_map m0).my_ships = true
                then [Command.spawn] else [])
        ∧ unit_cmds.length = me.ships.length
        ∧ ((turn c turn_number me game_map m0).command_queue.length = me.ships.length
            ∨ (turn c turn_number me game_map m0).command_queue.length
                = me.ships.length + 1) := by
  obtain ⟨cmds, hf, hq⟩ := decision_loop_commands c game_map me (end_game_mode c turn_number)
    (update_states c me (end_game_mode c turn_number) m0 me.ships)
    (sort_ships (update_states c me (end_game_mode c turn_number) m0 me.ships) me.ships)
    { occupied_indices := [], command_queue := [], final_positions := [] }
  have hlen : cmds.length = me.ships.length := by
    rw [← hf.length_eq]
    exact (sort_ships_perm _ me.ships).length_eq
  have hq2 : (decision_loop c game_map me (end_game_mode c turn_number)
      (update_states c me (end_game_mode c turn_number) m0 me.ships)
      (sort_ships (update_states c me (end_game_mode c turn_number) m0 me.ships)
        me.ships)).command_queue = cmds := by
    unfold decision_loop
    rw [hq]; simp
  refine ⟨cmds, hf, ?_, hlen, ?_⟩
  · simp only [turn, hq2]
  · simp only [turn, hq2, List.length_append, hlen]
    split_ifs
    · right; simp
    · left; simp

/-! ## Collision invariant on coordinate pairs -/

theorem escape_foldl_free (game_map : GameMap) (occupied_indices : List Int) (ship : Ship)
    (l : List Direction) :
    ∀ acc : Int × Direction,
      (acc.2 = Direction.STILL
        ∨ cell_free game_map occupied_indices
            (directional_offset game_map ship.position acc.2) = true) →
      ((l.foldl (escape_step game_map occupied_indices ship) acc).2 = Direction.STILL
        ∨ cell_free game_map occupied_indices
            (directional_offset game_map ship.position
              (l.foldl (escape_step game_map occupied_indices ship) acc).2) = true) := by
  induction l with
  | nil => intro acc h; exact h
  | cons d l ih =>
    intro acc h
    rw [List.foldl_cons]
    apply ih
    by_cases hf : cell_free game_map occupied_indices
        (directional_offset game_map ship.position d) = true
    · by_cases hh : game_map.halite (directional_offset game_map ship.position d) > acc.1
      · have hs : escape_step game_map occupied_indices ship acc d
            = (game_map.halite (directional_offset game_map ship.position d), d) := by
          simp [escape_step, hf, hh]
        rw [hs]
        right; exact hf
      · have hs : escape_step game_map occupied_indices ship acc d = acc := by
          simp [escape_step, hf, hh]
        rw [hs]; exact h
    · have hs : escape_step game_map occupied_indices ship acc d = acc := by
        simp [escape_step, hf]
      rw [hs]; exact h

theorem valid_moves_free (game_map : GameMap) (is_returning : FlagMap)
    (occupied_indices : List Int) (ship : Ship) (target : Position) (d : Direction)
    (hd : d ∈ valid_moves game_map is_returning occupied_indices ship target) :
    cell_free game_map occupied_indices (directional_offset game_map ship.position d)
      = true := by
  unfold valid_moves at hd
  have h := (List.mem_filter.mp hd).2
  simp only [Bool.and_eq_true, Bool.not_eq_true', Bool.or_eq_false_iff] at h
  unfold cell_free
  simp only [Bool.and_eq_true, Bool.not_eq_true']
  exact h.1

theorem path_move_free (c : Constants) (game_map : GameMap) (me : Player) (endgame : Bool)
    (is_returning : FlagMap) (occupied_indices : List Int) (ship : Ship)
    (hmove : path_move c game_map me endgame is_returning occupied_indices ship
      ≠ Direction.STILL) :
    cell_free game_map occupied_indices
      (directional_offset game_map ship.position
        (path_move c game_map me endgame is_returning occupied_indices ship)) = true := by
  unfold path_move at hmove ⊢
  simp only at hmove ⊢
  split_ifs at hmove ⊢ with h1 h2 h3
  · rcases escape_foldl_free game_map occupied_indices ship ALL_CARDINALS
        (-1, Direction.STILL) (Or.inl rfl) with h | h
    · exact absurd h hmove
    · exact h
  · exact absurd rfl hmove
  · cases hv : valid_moves game_map is_returning occupied_indices ship
        (target_pos c game_map me is_returning ship) with
    | nil => rw [hv] at hmove; exact absurd rfl hmove
    | cons d rest =>
      simp only
      apply valid_moves_free game_map is_returning occupied_indices ship
        (target_pos c game_map me is_returning ship) d
      rw [hv]; exact List.mem_cons_self d rest
  · exact absurd rfl hmove

theorem decide_ship_final (c : Constants) (game_map : GameMap) (me : Player)
    (endgame : Bool) (is_returning : FlagMap) (occupied_indices : List Int) (ship : Ship) :
    (decide_ship c game_map me endgame is_returning occupied_indices ship).final_pos
        = ship.position
      ∨ (game_map.is_occupied
            (decide_ship c game_map me endgame is_returning occupied_indices ship).final_pos
          = false
        ∧ cell_index game_map
            (decide_ship c game_map me endgame is_returning occupied_indices ship).final_pos
          ∉ occupied_indices) := by
  unfold decide_ship
  simp only
  split_ifs with hcl
  · left; rfl
  · by_cases hs : safe_move c game_map me endgame is_returning occupied_indices ship
        = Direction.STILL
    · left; rw [hs]; rfl
    · right
      refine ⟨?_, hcl⟩
      have hp : safe_move c game_map me endgame is_returning occupied_indices ship
          = path_move c game_map me endgame is_returning occupied_indices ship := by
        unfold safe_move at hs ⊢
        simp only at hs ⊢
        split_ifs at hs ⊢ with h
        · exact absurd rfl hs
        · rfl
      rw [hp] at hs ⊢
      have hfree := path_move_free c game_map me endgame is_returning occupied_indices ship hs
      unfold cell_free at hfree
      simp only [Bool.and_eq_true, Bool.not_eq_true'] at hfree
      exact hfree.2

theorem decide_ship_destination (c : Constants) (game_map : GameMap) (me : Player)
    (endgame : Bool) (is_returning : FlagMap) (occupied_indices : List Int) (ship : Ship) :
    (decide_ship c game_map me endgame is_returning occupied_indices ship).final_pos
      = destination game_map ship
          (command_of ship
            (decide_ship c game_map me endgame is_returning occupied_indices
              ship).best_move) := by
  unfold decide_ship
  simp only
  split_ifs with hcl
  · simp [command_of, destination]
  · by_cases hs : safe_move c game_map me endgame is_returning occupied_indices ship
        = Direction.STILL
    · simp [command_of, destination, hs, directional_offset]
    · simp [command_of, destination, hs]

/-- The invariant of the decision loop: every final cell recorded so far has its index in
the claimed-cell set, and is either unoccupied on the map or the own cell of a ship already
processed (whose positions are `seen`); the final cells are pairwise distinct. -/
theorem loop_invariant (c : Constants) (game_map : GameMap) (me : Player) (endgame : Bool)
    (is_returning : FlagMap) (todo : List Ship) :
    ∀ (st : LoopState) (seen : List Position),
      (todo.map Ship.position).Nodup →
      (∀ s ∈ todo, s.position ∉ seen) →
      (∀ s ∈ todo, game_map.is_occupied s.position = true) →
      (∀ f ∈ st.final_positions, cell_index game_map f ∈ st.occupied_indices) →
      (∀ f ∈ st.final_positions, game_map.is_occupied f = false ∨ f ∈ seen) →
      st.final_positions.Nodup →
      (todo.foldl (loop_step c game_map me endgame is_returning) st).final_positions.Nodup := by
  induction todo with
  | nil => intro st seen _ _ _ _ _ hnd; exact hnd
  | cons s todo ih =>
    intro st seen hpos hseen hocc hidx hcell hnd
    rw [List.foldl_cons]
    have hpos2 : s.position ∉ todo.map Ship.position ∧ (todo.map Ship.position).Nodup := by
      rw [List.map_cons] at hpos
      exact List.nodup_cons.mp hpos
    have hs_seen : s.position ∉ seen := hseen s (List.mem_cons_self s todo)
    have hs_occ : game_map.is_occupied s.position = true := hocc s (List.mem_cons_self s todo)
    have hfin := decide_ship_final c game_map me endgame is_returning st.occupied_indices s
    have hnew :
        (decide_ship c game_map me endgame is_returning st.occupied_indices s).final_pos
          ∉ st.final_positions := by
      intro hmem
      rcases hfin with h | ⟨_, h⟩
      · rw [h] at hmem
        rcases hcell _ hmem with h2 | h2
        · rw [hs_occ] at h2; cases h2
        · exact hs_seen h2
      · exact h (hidx _ hmem)
    apply ih (loop_step c game_map me endgame is_returning st s) (s.position :: seen)
    · exact hpos2.2
    · intro t ht hmem
      rcases List.mem_cons.mp hmem with h | h
      · exact hpos2.1 (by rw [← h]; exact List.mem_map_of_mem Ship.position ht)
      · exact hseen t (List.mem_cons_of_mem s ht) h
    · intro t ht
      exact hocc t (List.mem_cons_of_mem s ht)
    · intro f hf
      simp only [loop_step, List.mem_append, List.mem_singleton] at hf
      simp only [loop_step, List.mem_cons]
      rcases hf with h | h
      · right; exact hidx f h
      · left; rw [h]
    · intro f hf
      simp only [loop_step, List.mem_append, List.mem_singleton] at hf
      simp only [List.mem_cons]
      rcases hf with h | h
      · rcases hcell f h with h2 | h2
        · left; exact h2
        · right; right; exact h2
      · rcases hfin with h2 | ⟨h2, _⟩
        · right; left; rw [h, h2]
        · left; rw [h]; exact h2
    · simp only [loop_step]
      rw [List.nodup_append]
      refine ⟨hnd, List.nodup_singleton _, ?_⟩
      intro a ha hb
      rw [List.mem_singleton] at hb
      rw [hb] at ha
      exact hnew ha

theorem decision_loop_trace (c : Constants) (game_map : GameMap) (me : Player)
    (endgame : Bool) (is_returning : FlagMap) (ships : List Ship) :
    ∀ st : LoopState, ∃ cmds : List Command,
      cmds.length = ships.length
        ∧ (ships.foldl (loop_step c game_map me endgame is_returning) st).command_queue
            = st.command_queue ++ cmds
        ∧ (ships.foldl (loop_step c game_map me endgame is_returning) st).final_positions
            = st.final_positions ++ List.zipWith (destination game_map) ships cmds := by
  induction ships with
  | nil =>
    intro st
    exact ⟨[], rfl, by simp, by simp⟩
  | cons s ships ih =>
    intro st
    obtain ⟨cmds, hlen, hq, hf⟩ := ih (loop_step c game_map me endgame is_returning st s)
    refine ⟨command_of s
      (decide_ship c game_map me endgame is_returning st.occupied_indices s).best_move
        :: cmds, by simp [hlen], ?_, ?_⟩
    · rw [List.foldl_cons, hq]
      simp [loop_step]
    · rw [List.foldl_cons, hf]
      simp only [loop_step, List.zipWith_cons_cons, List.append_assoc, List.singleton_append]
      rw [decide_ship_destination]

/-- The final positions recorded by the decision loop are pairwise distinct as coordinate
pairs, when the snapshot puts the owned units on pairwise distinct positions, each marked
occupied in the map; they are the positions the commands lead to. Distinct coordinate pairs
may still denote one cell on a map that wraps around. -/
theorem final_positions_nodup (c : Constants) (turn_number : Int) (me : Player)
    (game_map : GameMap) (m0 : FlagMap)
    (hdistinct : (me.ships.map Ship.position).Nodup)
    (hoccupied : ∀ s ∈ me.ships, game_map.is_occupied s.position = true) :
    (List.zipWith (destination game_map) (turn c turn_number me game_map m0).my_ships
        (turn c turn_number me game_map m0).command_queue).Nodup
      ∧ (turn c turn_number me game_map m0).final_positions
        = List.zipWith (destination game_map) (turn c turn_number me game_map m0).my_ships
            (turn c turn_number me game_map m0).command_queue := by
  have hperm := sort_ships_perm
    (update_states c me (end_game_mode c turn_number) m0 me.ships) me.ships
  have hnd : ((sort_ships (update_states c me (end_game_mode c turn_number) m0 me.ships)
      me.ships).map Ship.position).Nodup :=
    (List.Perm.nodup_iff (hperm.map Ship.position)).mpr hdistinct
  have hoc : ∀ s ∈ sort_ships (update_states c me (end_game_mode c turn_number) m0 me.ships)
      me.ships, game_map.is_occupied s.position = true :=
    fun s hs => hoccupied s (hperm.subset hs)
  have hinv := loop_invariant c game_map me (end_game_mode c turn_number)
    (update_states c me (end_game_mode c turn_number) m0 me.ships)
    (sort_ships (update_states c me (end_game_mode c turn_number) m0 me.ships) me.ships)
    { occupied_indices := [], command_queue := [], final_positions := [] } []
    hnd (fun _ _ h => by cases h) hoc (fun _ h => by cases h) (fun _ h => by cases h)
    List.nodup_nil
  obtain ⟨cmds, hlen, hq, hf⟩ := decision_loop_trace c game_map me
    (end_game_mode c turn_number)
    (update_states c me (end_game_mode c turn_number) m0 me.ships)
    (sort_ships (update_states c me (end_game_mode c turn_number) m0 me.ships) me.ships)
    { occupied_indices := [], command_queue := [], final_positions := [] }
  simp only [List.nil_append] at hq hf
  have hzip : ∀ extra : List Command,
      List.zipWith (destination game_map)
        (sort_ships (update_states c me (end_game_mode c turn_number) m0 me.ships) me.ships)
        (cmds ++ extra)
      = List.zipWith (destination game_map)
        (sort_ships (update_states c me (end_game_mode c turn_number) m0 me.ships) me.ships)
        cmds := by
    intro extra
    have h := List.zipWith_append (destination game_map)
      (sort_ships (update_states c me (end_game_mode c turn_number) m0 me.ships) me.ships)
      [] cmds extra hlen.symm
    simpa using h
  have hfinal : (turn c turn_number me game_map m0).final_positions
      = List.zipWith (destination game_map) (turn c turn_number me game_map m0).my_ships
          (turn c turn_number me game_map m0).command_queue := by
    simp only [turn, decision_loop, hq, hf, hzip]
  refine ⟨?_, hfinal⟩
  rw [← hfinal]
  simp only [turn, decision_loop]
  exact hinv

/-! ## Safety net and final collision check: C14, C17 -/

theorem path_move_can_move (c : Constants) (game_map : GameMap) (me : Player)
    (endgame : Bool) (is_returning : FlagMap) (occupied_indices : List Int) (ship : Ship)
    (hmove : path_move c game_map me endgame is_returning occupied_indices ship
      ≠ Direction.STILL) :
    can_move c game_map ship = true := by
  by_contra hcm
  have hcm2 : can_move c game_map ship = false := by simpa using hcm
  exact hmove (path_move_cannot_move c game_map me endgame is_returning occupied_indices
    ship hcm2)

theorem safe_move_eq_path_move (c : Constants) (game_map : GameMap) (me : Player)
    (endgame : Bool) (is_returning : FlagMap) (occupied_indices : List Int) (ship : Ship) :
    safe_move c game_map me endgame is_returning occupied_indices ship
      = path_move c game_map me endgame is_returning occupied_indices ship := by
  unfold safe_move
  simp only
  split_ifs with h
  · have hcm := path_move_can_move c game_map me endgame is_returning occupied_indices
      ship h.1
    simp only [can_move, decide_eq_true_eq] at hcm
    omega
  · rfl

theorem decide_ship_eq (c : Constants) (game_map : GameMap) (me : Player)
    (endgame : Bool) (is_returning : FlagMap) (occupied_indices : List Int) (ship : Ship) :
    decide_ship c game_map me endgame is_returning occupied_indices ship
      = { best_move := path_move c game_map me endgame is_returning occupied_indices ship,
          final_pos := directional_offset game_map ship.position
            (path_move c game_map me endgame is_returning occupied_indices ship) } := by
  unfold decide_ship
  simp only [safe_move_eq_path_move]
  by_cases hs : path_move c game_map me endgame is_returning occupied_indices ship
      = Direction.STILL
  · rw [hs]
    split_ifs <;> rfl
  · have hfree := path_move_free c game_map me endgame is_returning occupied_indices ship hs
    unfold cell_free at hfree
    simp only [Bool.and_eq_true, Bool.not_eq_true', decide_eq_false_iff_not] at hfree
    simp only [hfree.1, if_false]

/-- C14. The affordability safety net never triggers: whenever the move chosen by the
pathfinding step is not `STILL`, the carried resource of the unit is at least the move cost
`halite_on_cell / MOVE_COST_RATIO`; the safety net therefore leaves the chosen move
unchanged, and every move command pushed by the decision loop goes to a unit whose carried
resource covers the move cost. -/
theorem safety_net_never_triggers (c : Constants) (game_map : GameMap) (me : Player)
    (endgame : Bool) (is_returning : FlagMap) (st : LoopState) (ship : Ship) :
    (path_move c game_map me endgame is_returning st.occupied_indices ship ≠ Direction.STILL →
        ship.halite ≥ move_cost c game_map ship)
      ∧ safe_move c game_map me endgame is_returning st.occupied_indices ship
        = path_move c game_map me endgame is_returning st.occupied_indices ship
      ∧ (∀ d : Direction,
          (loop_step c game_map me endgame is_returning st ship).command_queue
            = st.command_queue ++ [Command.move ship.id d] →
          ship.halite ≥ move_cost c game_map ship) := by
  have h1 : path_move c game_map me endgame is_returning st.occupied_indices ship
      ≠ Direction.STILL → ship.halite ≥ move_cost c game_map ship := by
    intro h
    have hcm := path_move_can_move c game_map me endgame is_returning st.occupied_indices
      ship h
    simpa [can_move] using hcm
  refine ⟨h1, safe_move_eq_path_move c game_map me endgame is_returning st.occupied_indices
    ship, ?_⟩
  intro d hq
  apply h1
  intro hstill
  simp only [loop_step, decide_ship_eq, hstill, command_of, if_true,
    List.append_cancel_left_eq, List.cons.injEq, and_true] at hq
  cases hq

theorem safety_net_never_triggers_witness :
    path_move sample_constants rich_map stranded_player false (FlagMap.empty.set 7 true) []
        miner = Direction.SOUTH
      ∧ miner.halite ≥ move_cost sample_constants rich_map miner :=
  ⟨by decide,
   (safety_net_never_triggers sample_constants rich_map stranded_player false
      (FlagMap.empty.set 7 true)
      { occupied_indices := [], command_queue := [], final_positions := [] } miner).1
      (by decide)⟩

theorem update_state_self (c : Constants) (me : Player) (endgame : Bool) (m : FlagMap)
    (ship : Ship) :
    update_state c me endgame m ship ship.id
      = some (if endgame = true then true
          else if m.get ship.id = true then !decide (ship.position = me.shipyard)
          else decide ((ship.halite : ℚ) ≥ (c.MAX_HALITE : ℚ) * (9 / 10))) := by
  unfold update_state
  cases hm : m ship.id with
  | none =>
    cases endgame <;>
      by_cases h9 : (ship.halite : ℚ) ≥ (c.MAX_HALITE : ℚ) * (9 / 10) <;>
      simp [FlagMap.get, FlagMap.set, hm, h9]
  | some b =>
    cases b <;> cases endgame <;>
      by_cases hp : ship.position = me.shipyard <;>
      by_cases h9 : (ship.halite : ℚ) ≥ (c.MAX_HALITE : ℚ) * (9 / 10) <;>
      simp [FlagMap.get, FlagMap.set, hm, hp, h9]

theorem update_state_self_congr (c : Constants) (me : Player) (endgame : Bool)
    (m m2 : FlagMap) (ship : Ship) (h : m ship.id = m2 ship.id) :
    update_state c me endgame m ship ship.id = update_state c me endgame m2 ship ship.id := by
  rw [update_state_self, update_state_self]
  simp only [FlagMap.get, h]

/-- C15. The state update is order-independent and framed: for two units with distinct
ids and either value of the endgame mode, updating the flag mapping for `a` and then for `b`
gives the same mapping as updating for `b` and then for `a`; and updating for one unit
leaves every entry other than the entry of that unit's id unchanged. -/
theorem state_update_order_independent (c : Constants) (me : Player) (endgame : Bool)
    (m : FlagMap) (a b : Ship) (hne : a.id ≠ b.id) :
    update_state c me endgame (update_state c me endgame m a) b
        = update_state c me endgame (update_state c me endgame m b) a
      ∧ (∀ k : Int, k ≠ a.id → update_state c me endgame m a k = m k) := by
  refine ⟨?_, fun k hk => update_state_other c me endgame m a k hk⟩
  funext k
  by_cases ha : k = a.id
  · subst ha
    rw [update_state_other c me endgame (update_state c me endgame m a) b a.id hne]
    exact update_state_self_congr c me endgame _ _ a
      (update_state_other c me endgame m b a.id hne).symm
  · by_cases hb : k = b.id
    · subst hb
      rw [update_state_other c me endgame (update_state c me endgame m b) a b.id ha]
      exact update_state_self_congr c me endgame _ _ b
        (update_state_other c me endgame m a b.id ha)
    · rw [update_state_other c me endgame (update_state c me endgame m a) b k hb,
        update_state_other c me endgame (update_state c me endgame m b) a k ha,
        update_state_other c me endgame m a k ha, update_state_other c me endgame m b k hb]

theorem state_update_order_independent_witness :
    update_state sample_constants stranded_player false
        (update_state sample_constants stranded_player false FlagMap.empty (idle_ship 0))
        miner
      = update_state sample_constants stranded_player false
        (update_state sample_constants stranded_player false FlagMap.empty miner)
        (idle_ship 0) :=
  (state_update_order_independent sample_constants stranded_player false FlagMap.empty
    (idle_ship 0) miner (by decide)).1

/-! ## Spawn gate in endgame mode: C20 -/

/-- C20. No spawn in endgame mode: when the turn number exceeds `MAX_TURNS - 30` (endgame
mode active) `should_spawn` returns false; the stop buffer is 80 or 110, and for both values
the turn number exceeds `MAX_TURNS - stop_buffer`. -/
theorem no_spawn_in_endgame (c : Constants) (turn_number : Int) (me : Player)
    (game_map : GameMap) (occupied_indices : List Int) (is_returning : FlagMap)
    (my_ships : List Ship) (hend : turn_number > c.MAX_TURNS - 30) :
    end_game_mode c turn_number = true
      ∧ (stop_buffer game_map = 80 ∨ stop_buffer game_map = 110)
      ∧ turn_number > c.MAX_TURNS - 80 ∧ turn_number > c.MAX_TURNS - 110
      ∧ should_spawn c turn_number me game_map occupied_indices is_returning my_ships
          = false := by
  have hbuf : stop_buffer game_map = 80 ∨ stop_buffer game_map = 110 := by
    unfold stop_buffer
    split_ifs
    · left; rfl
    · right; rfl
  refine ⟨by simp only [end_game_mode, decide_eq_true_eq]; exact hend, hbuf, by omega,
    by omega, ?_⟩
  rw [← Bool.not_eq_true, should_spawn_eq_true_iff]
  rintro ⟨_, h2, _⟩
  rcases hbuf with h | h <;> rw [h] at h2 <;> omega

theorem no_spawn_in_endgame_witness :
    should_spawn sample_constants 480 (sample_player 5) empty_map [] FlagMap.empty
        (sample_player 5).ships = false :=
  (no_spawn_in_endgame sample_constants 480 (sample_player 5) empty_map [] FlagMap.empty
    (sample_player 5).ships (by decide)).2.2.2.2

/-! ## Local pathfinding: C13, C12 -/

theorem valid_moves_eq_filter (game_map : GameMap) (is_returning : FlagMap)
    (occupied_indices : List Int) (ship : Ship) (target : Position) :
    valid_moves game_map is_returning occupied_indices ship target
      = ALL_CARDINALS.filter (fun d =>
          decide (move_qualifies game_map is_returning occupied_indices ship target d)) := by
  unfold valid_moves
  apply List.filter_congr
  intro d _
  apply Bool.eq_iff_iff.mpr
  simp only [decide_eq_true_eq, move_qualifies, Bool.and_eq_true, Bool.or_eq_true,
    Bool.not_eq_true', Bool.or_eq_false_iff, decide_eq_false_iff_not]
  tauto

theorem not_still_of_mem_cardinals (d : Direction) (hd : d ∈ ALL_CARDINALS) :
    d ≠ Direction.STILL := by
  intro h
  rw [h] at hd
  simp [ALL_CARDINALS] at hd

theorem path_move_towards (c : Constants) (game_map : GameMap) (me : Player) (endgame : Bool)
    (is_returning : FlagMap) (occupied_indices : List Int) (ship : Ship)
    (htarget : target_pos c game_map me is_returning ship ≠ ship.position)
    (hcan : can_move c game_map ship = true) :
    path_move c game_map me endgame is_returning occupied_indices ship
      = match valid_moves game_map is_returning occupied_indices ship
            (target_pos c game_map me is_returning ship) with
        | [] => Direction.STILL
        | d :: _ => d := by
  unfold path_move
  simp only [htarget, hcan, if_true, if_false]

theorem sample_distance_nonneg (a b : Position) : 0 ≤ sample_distance a b := by
  unfold sample_distance
  positivity

theorem sample_distance_eq_zero (a b : Position) : sample_distance a b = 0 ↔ a = b := by
  unfold sample_distance
  constructor
  · intro h
    have h1 := abs_nonneg (a.x - b.x)
    have h2 := abs_nonneg (a.y - b.y)
    have hx : |a.x - b.x| = 0 := by omega
    have hy : |a.y - b.y| = 0 := by omega
    rw [abs_eq_zero] at hx hy
    cases a; cases b
    simp only [Position.mk.injEq]
    simp only at hx hy
    omega
  · intro h
    rw [h]; simp

theorem cell_free_iff (game_map : GameMap) (occupied_indices : List Int) (ship : Ship)
    (d : Direction) :
    cell_free game_map occupied_indices (directional_offset game_map ship.position d) = true
      ↔ neighbour_free game_map occupied_indices ship d := by
  unfold cell_free neighbour_free
  simp only [Bool.and_eq_true, Bool.not_eq_true', decide_eq_false_iff_not]
  tauto

theorem escape_foldl_spec (game_map : GameMap) (occupied_indices : List Int) (ship : Ship)
    (l : List Direction) :
    ∀ (m : Int) (b : Direction),
      ((∀ d ∈ l, neighbour_free game_map occupied_indices ship d →
            game_map.halite (directional_offset game_map ship.position d) ≤ m) →
          l.foldl (escape_step game_map occupied_indices ship) (m, b) = (m, b))
      ∧ ((∃ d ∈ l, neighbour_free game_map occupied_indices ship d
            ∧ game_map.halite (directional_offset game_map ship.position d) > m) →
          ∃ pre d post, l = pre ++ d :: post
            ∧ neighbour_free game_map occupied_indices ship d
            ∧ (∀ e ∈ pre, neighbour_free game_map occupied_indices ship e →
                game_map.halite (directional_offset game_map ship.position e)
                  < game_map.halite (directional_offset game_map ship.position d))
            ∧ (∀ e ∈ post, neighbour_free game_map occupied_indices ship e →
                game_map.halite (directional_offset game_map ship.position e)
                  ≤ game_map.halite (directional_offset game_map ship.position d))
            ∧ m < game_map.halite (directional_offset game_map ship.position d)
            ∧ l.foldl (escape_step game_map occupied_indices ship) (m, b)
                = (game_map.halite (directional_offset game_map ship.position d), d)) := by
  induction l with
  | nil =>
    intro m b
    exact ⟨fun _ => rfl, fun ⟨d, hd, _⟩ => by cases hd⟩
  | cons a l ih =>
    intro m b
    by_cases ha : neighbour_free game_map occupied_indices ship a
        ∧ game_map.halite (directional_offset game_map ship.position a) > m
    · have hstep : escape_step game_map occupied_indices ship (m, b) a
          = (game_map.halite (directional_offset game_map ship.position a), a) := by
        have hf := (cell_free_iff game_map occupied_indices ship a).mpr ha.1
        simp [escape_step, hf, ha.2]
      have ih2 := ih (game_map.halite (directional_offset game_map ship.position a)) a
      constructor
      · intro hall
        exact absurd (hall a (List.mem_cons_self a l) ha.1) (not_le.mpr ha.2)
      · intro _
        rw [List.foldl_cons, hstep]
        by_cases hex : ∃ d ∈ l, neighbour_free game_map occupied_indices ship d
            ∧ game_map.halite (directional_offset game_map ship.position d)
              > game_map.halite (directional_offset game_map ship.position a)
        · obtain ⟨pre, d, post, hl, hfree, hpre, hpost, hlt, hres⟩ := ih2.2 hex
          refine ⟨a :: pre, d, post, by rw [hl]; rfl, hfree, ?_, hpost,
            lt_trans ha.2 hlt, hres⟩
          intro e he hfe
          rcases List.mem_cons.mp he with h | h
          · rw [h]; exact hlt
          · exact hpre e h hfe
        · have hall : ∀ d ∈ l, neighbour_free game_map occupied_indices ship d →
              game_map.halite (directional_offset game_map ship.position d)
                ≤ game_map.halite (directional_offset game_map ship.position a) := by
            intro d hd hfd
            by_contra hcon
            exact hex ⟨d, hd, hfd, not_le.mp hcon⟩
          refine ⟨[], a, l, rfl, ha.1, ?_, hall, ha.2, ih2.1 hall⟩
          intro e he
          cases he
    · have hstep : escape_step game_map occupied_indices ship (m, b) a = (m, b) := by
        unfold escape_step
        by_cases hf : cell_free game_map occupied_indices
            (directional_offset game_map ship.position a) = true
        · have hna : ¬ game_map.halite (directional_offset game_map ship.position a) > m :=
            fun h => ha ⟨(cell_free_iff game_map occupied_indices ship a).mp hf, h⟩
          simp [hf, hna]
        · simp [hf]
      have ih2 := ih m b
      constructor
      · intro hall
        rw [List.foldl_cons, hstep]
        exact ih2.1 (fun d hd => hall d (List.mem_cons_of_mem a hd))
      · rintro ⟨d, hd, hfd, hgt⟩
        rw [List.foldl_cons, hstep]
        have hdl : d ∈ l := by
          rcases List.mem_cons.mp hd with h | h
          · rw [h] at hfd hgt; exact absurd ⟨hfd, hgt⟩ ha
          · exact h
        obtain ⟨pre, d2, post, hl, hfree, hpre, hpost, hlt, hres⟩ := ih2.2 ⟨d, hdl, hfd, hgt⟩
        refine ⟨a :: pre, d2, post, by rw [hl]; rfl, hfree, ?_, hpost, hlt, hres⟩
        intro e he hfe
        rcases List.mem_cons.mp he with h | h
        · rw [h] at hfe ⊢
          have : game_map.halite (directional_offset game_map ship.position a) ≤ m := by
            by_contra hcon
            exact ha ⟨hfe, not_le.mp hcon⟩
          omega
        · exact hpre e h hfe

/-- C12. Escape the base: for a unit whose target equals its current position, standing on
the base cell, outside endgame mode and able to afford a move (free neighbours carrying a
non-negative resource amount): when some cardinal neighbour is free (neither occupied on the
map nor claimed this turn), the final move leads to a free neighbour whose resource amount is
maximal among the free neighbours, the first such in enumeration order (earlier free
neighbours carry strictly less, later ones not more), and the loop pushes the move command
in that direction; when all four neighbours are blocked the unit stays. -/
theorem escape_the_base (c : Constants) (game_map : GameMap) (me : Player)
    (is_returning : FlagMap) (st : LoopState) (ship : Ship)
    (htarget : target_pos c game_map me is_returning ship = ship.position)
    (hbase : ship.position = me.shipyard)
    (hcan : ship.halite ≥ move_cost c game_map ship)
    (hnn : ∀ d ∈ ALL_CARDINALS, neighbour_free game_map st.occupied_indices ship d →
      0 ≤ game_map.halite (directional_offset game_map ship.position d)) :
    ((∃ d ∈ ALL_CARDINALS, neighbour_free game_map st.occupied_indices ship d) →
        ∃ pre d post, ALL_CARDINALS = pre ++ d :: post
          ∧ neighbour_free game_map st.occupied_indices ship d
          ∧ (∀ e ∈ pre, neighbour_free game_map st.occupied_indices ship e →
              game_map.halite (directional_offset game_map ship.position e)
                < game_map.halite (directional_offset game_map ship.position d))
          ∧ (∀ e ∈ post, neighbour_free game_map st.occupied_indices ship e →
              game_map.halite (directional_offset game_map ship.position e)
                ≤ game_map.halite (directional_offset game_map ship.position d))
          ∧ (decide_ship c game_map me false is_returning st.occupied_indices ship).best_move
              = d
          ∧ (loop_step c game_map me false is_returning st ship).command_queue
              = st.command_queue ++ [Command.move ship.id d])
      ∧ ((∀ d ∈ ALL_CARDINALS, ¬ neighbour_free game_map st.occupied_indices ship d) →
          (decide_ship c game_map me false is_returning st.occupied_indices ship).best_move
              = Direction.STILL
            ∧ (loop_step c game_map me false is_returning st ship).command_queue
              = st.command_queue ++ [Command.stay ship.id]) := by
  have hcm : can_move c game_map ship = true := by
    simp only [can_move, decide_eq_true_eq]; exact hcan
  have hpath : path_move c game_map me false is_returning st.occupied_indices ship
      = (escape_scan game_map st.occupied_indices ship).2 := by
    unfold path_move
    simp [htarget, hbase, hcm]
  have hspec := escape_foldl_spec game_map st.occupied_indices ship ALL_CARDINALS (-1)
    Direction.STILL
  constructor
  · rintro ⟨d, hd, hfd⟩
    have hex : ∃ d ∈ ALL_CARDINALS, neighbour_free game_map st.occupied_indices ship d
        ∧ game_map.halite (directional_offset game_map ship.position d) > -1 := by
      have := hnn d hd hfd
      exact ⟨d, hd, hfd, by omega⟩
    obtain ⟨pre, d2, post, hl, hfree, hpre, hpost, _, hres⟩ := hspec.2 hex
    have hd2 : d2 ∈ ALL_CARDINALS := by rw [hl]; simp
    have hns := not_still_of_mem_cardinals d2 hd2
    have hpath2 : path_move c game_map me false is_returning st.occupied_indices ship
        = d2 := by
      rw [hpath]; unfold escape_scan; rw [hres]
    refine ⟨pre, d2, post, hl, hfree, hpre, hpost, by rw [decide_ship_eq, hpath2], ?_⟩
    simp only [loop_step, decide_ship_eq, hpath2, command_of, hns, if_false]
  · intro hall
    have hall2 : ∀ d ∈ ALL_CARDINALS, neighbour_free game_map st.occupied_indices ship d →
        game_map.halite (directional_offset game_map ship.position d) ≤ -1 :=
      fun d hd hfd => absurd hfd (hall d hd)
    have hpath2 : path_move c game_map me false is_returning st.occupied_indices ship
        = Direction.STILL := by
      rw [hpath]; unfold escape_scan; rw [hspec.1 hall2]
    refine ⟨by rw [decide_ship_eq, hpath2], ?_⟩
    simp only [loop_step, decide_ship_eq, hpath2, command_of, if_true]

theorem escape_the_base_witness :
    (loop_step sample_constants base_map depositor_player false (FlagMap.empty.set 9 true)
        { occupied_indices := [560], command_queue := [], final_positions := [] }
        depositor).command_queue = [] ++ [Command.move depositor.id Direction.EAST]
      ∧ ∃ pre d post, ALL_CARDINALS = pre ++ d :: post
          ∧ neighbour_free base_map [560] depositor d
          ∧ (∀ e ∈ pre, neighbour_free base_map [560] depositor e →
              base_map.halite (directional_offset base_map depositor.position e)
                < base_map.halite (directional_offset base_map depositor.position d))
          ∧ (∀ e ∈ post, neighbour_free base_map [560] depositor e →
              base_map.halite (directional_offset base_map depositor.position e)
                ≤ base_map.halite (directional_offset base_map depositor.position d))
          ∧ (decide_ship sample_constants base_map depositor_player false
              (FlagMap.empty.set 9 true) [560] depositor).best_move = d
          ∧ (loop_step sample_constants base_map depositor_player false
              (FlagMap.empty.set 9 true)
              { occupied_indices := [560], command_queue := [], final_positions := [] }
              depositor).command_queue = [] ++ [Command.move depositor.id d] :=
  ⟨by decide,
   (escape_the_base sample_constants base_map depositor_player (FlagMap.empty.set 9 true)
      { occupied_indices := [560], command_queue := [], final_positions := [] } depositor
      (by decide) (by decide) (by decide) (by decide)).1
      ⟨Direction.NORTH, by decide, by decide⟩⟩

/-! ## Returning units: C19 -/

theorem move_command_path (c : Constants) (game_map : GameMap) (me : Player)
    (endgame : Bool) (is_returning : FlagMap) (st : LoopState) (ship : Ship) (d : Direction)
    (hq : (loop_step c game_map me endgame is_returning st ship).command_queue
      = st.command_queue ++ [Command.move ship.id d]) :
    path_move c game_map me endgame is_returning st.occupied_indices ship = d
      ∧ d ≠ Direction.STILL := by
  by_cases hstill : path_move c game_map me endgame is_returning st.occupied_indices ship
      = Direction.STILL
  · simp only [loop_step, decide_ship_eq, hstill, command_of, if_true,
      List.append_cancel_left_eq, List.cons.injEq, and_true] at hq
    cases hq
  · simp only [loop_step, decide_ship_eq, hstill, command_of, if_false,
      List.append_cancel_left_eq, List.cons.injEq, and_true, Command.move.injEq,
      true_and] at hq
    rw [← hq]
    exact ⟨rfl, hstill⟩

theorem returning_path_on_base (c : Constants) (game_map : GameMap) (me : Player)
    (endgame : Bool) (is_returning : FlagMap) (occupied_indices : List Int) (ship : Ship)
    (htarget : target_pos c game_map me is_returning ship = ship.position)
    (hoff : ship.position ≠ me.shipyard ∨ endgame = true) :
    path_move c game_map me endgame is_returning occupied_indices ship
      = Direction.STILL := by
  unfold path_move
  simp only [htarget, if_true]
  rcases hoff with h | h
  · simp [h]
  · simp [h]

theorem returning_move_closer (c : Constants) (game_map : GameMap) (me : Player)
    (endgame : Bool) (is_returning : FlagMap) (st : LoopState) (ship : Ship)
    (hflag : is_returning.get ship.id = true)
    (hoff : ship.position ≠ me.shipyard ∨ endgame = true) (d : Direction)
    (hq : (loop_step c game_map me endgame is_returning st ship).command_queue
      = st.command_queue ++ [Command.move ship.id d]) :
    game_map.calculate_distance (directional_offset game_map ship.position d) me.shipyard
      < game_map.calculate_distance ship.position me.shipyard := by
  obtain ⟨hpath, hns⟩ := move_command_path c game_map me endgame is_returning st ship d hq
  have hcm := path_move_can_move c game_map me endgame is_returning st.occupied_indices
    ship (by rw [hpath]; exact hns)
  have ht : target_pos c game_map me is_returning ship = me.shipyard := by
    simp [target_pos, hcm, hflag]
  have hne : target_pos c game_map me is_returning ship ≠ ship.position := by
    intro h
    have := returning_path_on_base c game_map me endgame is_returning st.occupied_indices
      ship h hoff
    rw [hpath] at this
    exact hns this
  have hpt := path_move_towards c game_map me endgame is_returning st.occupied_indices
    ship hne hcm
  rw [hpath, valid_moves_eq_filter] at hpt
  cases hv : ALL_CARDINALS.filter (fun d =>
      decide (move_qualifies game_map is_returning st.occupied_indices ship
        (target_pos c game_map me is_returning ship) d)) with
  | nil => rw [hv] at hpt; exact absurd hpt hns
  | cons d2 rest =>
    rw [hv] at hpt
    simp only at hpt
    have hmem : d2 ∈ ALL_CARDINALS.filter (fun d =>
        decide (move_qualifies game_map is_returning st.occupied_indices ship
          (target_pos c game_map me is_returning ship) d)) := by
      rw [hv]; exact List.mem_cons_self d2 rest
    have hq2 := (List.mem_filter.mp hmem).2
    simp only [decide_eq_true_eq] at hq2
    rw [← hpt] at hq2
    unfold move_qualifies at hq2
    rw [ht] at hq2
    rcases hq2.2.2 with h | ⟨h, _⟩
    · exact h
    · rw [hflag] at h; cases h

theorem update_states_frame (c : Constants) (me : Player) (endgame : Bool)
    (l : List Ship) :
    ∀ (m : FlagMap) (k : Int), k ∉ l.map Ship.id →
      update_states c me endgame m l k = m k := by
  induction l with
  | nil => intro m k _; rfl
  | cons a l ih =>
    intro m k hk
    rw [List.map_cons, List.mem_cons, not_or] at hk
    show update_states c me endgame (update_state c me endgame m a) l k = m k
    rw [ih (update_state c me endgame m a) k hk.2]
    exact update_state_other c me endgame m a k hk.1

theorem update_states_own (c : Constants) (me : Player) (endgame : Bool) (l : List Ship) :
    ∀ (m : FlagMap) (s : Ship), (l.map Ship.id).Nodup → s ∈ l →
      ∃ m2 : FlagMap, update_states c me endgame m l s.id
        = update_state c me endgame m2 s s.id := by
  induction l with
  | nil => intro m s _ hs; cases hs
  | cons a l ih =>
    intro m s hnd hs
    rw [List.map_cons, List.nodup_cons] at hnd
    rcases List.mem_cons.mp hs with h | h
    · subst h
      refine ⟨m, ?_⟩
      show update_states c me endgame (update_state c me endgame m s) l s.id = _
      exact update_states_frame c me endgame l _ s.id hnd.1
    · exact ih (update_state c me endgame m a) s hnd.2 h

theorem flag_on_base_stays_false (c : Constants) (me : Player) (m : FlagMap) (ship : Ship)
    (hpos : ship.position = me.shipyard)
    (hcargo : 10 * ship.halite < 9 * c.MAX_HALITE) :
    (update_state c me false m ship).get ship.id = false := by
  have hq : ¬ ((ship.halite : ℚ) ≥ (c.MAX_HALITE : ℚ) * (9 / 10)) := by
    intro h
    have := (ninety_percent_iff ship.halite c.MAX_HALITE).mp h
    omega
  simp only [FlagMap.get, update_state_self, Option.getD_some]
  by_cases hold : (m ship.id).getD false = true <;> simp [hold, hpos, hq]

/-- C19. A returning unit never moves away from the base: in a turn whose snapshot gives
the owned units distinct ids, for a unit whose returning flag is true after the state update
of that turn and that, when it stands on the base cell, carries less than 90% of the
capacity (the base being the deposit point), if the loop pushes a move command for it then
the destination is strictly closer to the base than its current position; and the guard of
the escape-the-base scan (target equal to the position, on the base, outside endgame mode,
able to move) is false for it, so the scan is never applied to it. -/
theorem returning_never_moves_away (c : Constants) (turn_number : Int) (me : Player)
    (game_map : GameMap) (m0 : FlagMap) (st : LoopState) (ship : Ship)
    (hids : (me.ships.map Ship.id).Nodup)
    (hship : ship ∈ me.ships)
    (hdeposit : ship.position = me.shipyard → 10 * ship.halite < 9 * c.MAX_HALITE)
    (hflag : (turn c turn_number me game_map m0).is_returning.get ship.id = true) :
    (∀ d : Direction,
        (loop_step c game_map me (end_game_mode c turn_number)
            (turn c turn_number me game_map m0).is_returning st ship).command_queue
          = st.command_queue ++ [Command.move ship.id d] →
        game_map.calculate_distance (directional_offset game_map ship.position d)
            me.shipyard
          < game_map.calculate_distance ship.position me.shipyard)
      ∧ ¬ (target_pos c game_map me (turn c turn_number me game_map m0).is_returning ship
            = ship.position
          ∧ ship.position = me.shipyard
          ∧ end_game_mode c turn_number = false
          ∧ can_move c game_map ship = true) := by
  have hoff : ship.position ≠ me.shipyard ∨ end_game_mode c turn_number = true := by
    by_cases hpos : ship.position = me.shipyard
    · right
      by_contra hmode
      have hmode2 : end_game_mode c turn_number = false := by simpa using hmode
      obtain ⟨m2, hm2⟩ := update_states_own c me (end_game_mode c turn_number) me.ships m0
        ship hids hship
      have hfalse := flag_on_base_stays_false c me m2 ship hpos (hdeposit hpos)
      have hget : (turn c turn_number me game_map m0).is_returning.get ship.id
          = (update_state c me false m2 ship).get ship.id := by
        show (update_states c me (end_game_mode c turn_number) m0 me.ships ship.id).getD
            false = (update_state c me false m2 ship ship.id).getD false
        rw [hm2, hmode2]
      rw [hget, hfalse] at hflag
      cases hflag
    · left; exact hpos
  refine ⟨fun d hq => returning_move_closer c game_map me (end_game_mode c turn_number)
    (turn c turn_number me game_map m0).is_returning st ship hflag hoff d hq, ?_⟩
  rintro ⟨_, hpos, hmode, _⟩
  rcases hoff with h | h
  · exact h hpos
  · rw [hmode] at h; cases h

theorem returning_never_moves_away_witness :
    sample_distance (directional_offset rich_map miner.position Direction.SOUTH)
        miner_player.shipyard
      < sample_distance miner.position miner_player.shipyard :=
  (returning_never_moves_away sample_constants 10 miner_player rich_map
    (FlagMap.empty.set 7 true)
    { occupied_indices := [], command_queue := [], final_positions := [] } miner
    (by decide) (by decide) (by decide) (by decide)).1 Direction.SOUTH (by decide)

/-! ## Spawn and owned units: C16 -/

theorem loop_claims (c : Constants) (game_map : GameMap) (me : Player) (endgame : Bool)
    (is_returning : FlagMap) (ships : List Ship) :
    ∀ st : LoopState,
      (∀ f ∈ st.final_positions, cell_index game_map f ∈ st.occupied_indices) →
      ∀ f ∈ (ships.foldl (loop_step c game_map me endgame is_returning) st).final_positions,
        cell_index game_map f
          ∈ (ships.foldl (loop_step c game_map me endgame is_returning) st).occupied_indices
    := by
  induction ships with
  | nil => intro st h; exact h
  | cons s ships ih =>
    intro st h
    rw [List.foldl_cons]
    apply ih
    intro f hf
    simp only [loop_step, List.mem_append, List.mem_singleton] at hf
    simp only [loop_step, List.mem_cons]
    rcases hf with h2 | h2
    · right; exact h f h2
    · left; rw [h2]

theorem spawn_not_unit_command (ships : List Ship) (cmds : List Command)
    (h : List.Forall₂ unit_command ships cmds) : Command.spawn ∉ cmds := by
  induction h with
  | nil => intro hmem; cases hmem
  | cons hu _ ih =>
    intro hmem
    rcases List.mem_cons.mp hmem with h2 | h2
    · rcases hu with h3 | ⟨d, _, h3⟩
      · rw [← h2] at h3; cases h3
      · rw [← h2] at h3; cases h3
    · exact ih h2

theorem turn_spawn_iff (c : Constants) (turn_number : Int) (me : Player)
    (game_map : GameMap) (m0 : FlagMap) :
    Command.spawn ∈ (turn c turn_number me game_map m0).command_queue ↔
      should_spawn c turn_number me game_map
        (decision_loop c game_map me (end_game_mode c turn_number)
          (update_states c me (end_game_mode c turn_number) m0 me.ships)
          (sort_ships (update_states c me (end_game_mode c turn_number) m0 me.ships)
            me.ships)).occupied_indices
        (update_states c me (end_game_mode c turn_number) m0 me.ships)
        (sort_ships (update_states c me (end_game_mode c turn_number) m0 me.ships) me.ships)
        = true := by
  obtain ⟨cmds, hf, hq⟩ := decision_loop_commands c game_map me (end_game_mode c turn_number)
    (update_states c me (end_game_mode c turn_number) m0 me.ships)
    (sort_ships (update_states c me (end_game_mode c turn_number) m0 me.ships) me.ships)
    { occupied_indices := [], command_queue := [], final_positions := [] }
  have hnot := spawn_not_unit_command _ _ hf
  have hq2 : (decision_loop c game_map me (end_game_mode c turn_number)
      (update_states c me (end_game_mode c turn_number) m0 me.ships)
      (sort_ships (update_states c me (end_game_mode c turn_number) m0 me.ships)
        me.ships)).command_queue = cmds := by
    unfold decision_loop
    rw [hq]; simp
  simp only [turn, hq2, List.mem_append]
  constructor
  · rintro (h | h)
    · exact absurd h hnot
    · by_contra hss
      simp only [hss, if_false] at h
      cases h
  · intro hss
    right
    simp only [hss, if_true]
    exact List.mem_singleton_self _

theorem turn_final_positions (c : Constants) (turn_number : Int) (me : Player)
    (game_map : GameMap) (m0 : FlagMap) :
    (turn c turn_number me game_map m0).final_positions
      = List.zipWith (destination game_map) (turn c turn_number me game_map m0).my_ships
          (turn c turn_number me game_map m0).command_queue := by
  obtain ⟨cmds, hlen, hq, hf⟩ := decision_loop_trace c game_map me
    (end_game_mode c turn_number)
    (update_states c me (end_game_mode c turn_number) m0 me.ships)
    (sort_ships (update_states c me (end_game_mode c turn_number) m0 me.ships) me.ships)
    { occupied_indices := [], command_queue := [], final_positions := [] }
  simp only [List.nil_append] at hq hf
  have hzip : ∀ extra : List Command,
      List.zipWith (destination game_map)
        (sort_ships (update_states c me (end_game_mode c turn_number) m0 me.ships) me.ships)
        (cmds ++ extra)
      = List.zipWith (destination game_map)
        (sort_ships (update_states c me (end_game_mode c turn_number) m0 me.ships) me.ships)
        cmds := by
    intro extra
    have h := List.zipWith_append (destination game_map)
      (sort_ships (update_states c me (end_game_mode c turn_number) m0 me.ships) me.ships)
      [] cmds extra hlen.symm
    simpa using h
  simp only [turn, decision_loop, hq, hf, hzip]

/-- C16. A spawn never lands on an owned unit: in a turn whose command queue contains the
spawn command, no final cell of an owned unit (its own cell for a stay command, the
neighbour cell for a move command) is the base cell, the base cell is not occupied on the
map, and hence, the snapshot marking the cell of every owned unit as occupied, no owned unit
stood on the base cell at the start of the turn. -/
theorem spawn_never_lands_on_unit (c : Constants) (turn_number : Int) (me : Player)
    (game_map : GameMap) (m0 : FlagMap)
    (hspawn : Command.spawn ∈ (turn c turn_number me game_map m0).command_queue) :
    (∀ f ∈ List.zipWith (destination game_map)
          (turn c turn_number me game_map m0).my_ships
          (turn c turn_number me game_map m0).command_queue, f ≠ me.shipyard)
      ∧ game_map.is_occupied me.shipyard = false
      ∧ ((∀ s ∈ me.ships, game_map.is_occupied s.position = true) →
          ∀ s ∈ me.ships, s.position ≠ me.shipyard) := by
  have hss := (turn_spawn_iff c turn_number me game_map m0).mp hspawn
  rw [should_spawn_eq_true_iff] at hss
  obtain ⟨_, _, _, hclaim, hocc, _⟩ := hss
  refine ⟨?_, hocc, ?_⟩
  · rw [← turn_final_positions]
    intro f hf hfb
    have hmem := loop_claims c game_map me (end_game_mode c turn_number)
      (update_states c me (end_game_mode c turn_number) m0 me.ships)
      (sort_ships (update_states c me (end_game_mode c turn_number) m0 me.ships) me.ships)
      { occupied_indices := [], command_queue := [], final_positions := [] }
      (fun _ h => by cases h) f hf
    rw [hfb] at hmem
    exact hclaim hmem
  · intro hmarked s hs hsb
    have := hmarked s hs
    rw [hsb, hocc] at this
    cases this

theorem wealthy_flags :
    update_states sample_constants wealthy_player false FlagMap.empty [stranded]
      = FlagMap.empty.set 7 false := by
  funext k
  have h9 : ¬ (((0 : Int) : ℚ) ≥ ((1000 : Int) : ℚ) * (9 / 10)) := by norm_num
  simp only [update_states, List.foldl_cons, List.foldl_nil, update_state, stranded,
    sample_constants, FlagMap.empty, if_true, h9]
  rfl

theorem wealthy_turn_spawns :
    Command.spawn
      ∈ (turn sample_constants 10 wealthy_player crowded_map FlagMap.empty).command_queue := by
  have hend : end_game_mode sample_constants 10 = false := by decide
  have hships : wealthy_player.ships = [stranded] := rfl
  simp only [turn, hend, hships, wealthy_flags]
  decide

theorem spawn_never_lands_on_unit_witness :
    (∀ f ∈ List.zipWith (destination crowded_map)
          (turn sample_constants 10 wealthy_player crowded_map FlagMap.empty).my_ships
          (turn sample_constants 10 wealthy_player crowded_map FlagMap.empty).command_queue,
        f ≠ wealthy_player.shipyard)
      ∧ crowded_map.is_occupied wealthy_player.shipyard = false
      ∧ ((∀ s ∈ wealthy_player.ships, crowded_map.is_occupied s.position = true) →
          ∀ s ∈ wealthy_player.ships, s.position ≠ wealthy_player.shipyard) :=
  spawn_never_lands_on_unit sample_constants 10 wealthy_player crowded_map FlagMap.empty
    wealthy_turn_spawns

/-! ## Redundancy of the landing-on-target branch: C18 -/

theorem valid_moves_closer_eq (game_map : GameMap) (is_returning : FlagMap)
    (occupied_indices : List Int) (ship : Ship) (target : Position)
    (hzero : ∀ a b, game_map.calculate_distance a b = 0 ↔ a = b)
    (hnn : ∀ a b, 0 ≤ game_map.calculate_distance a b)
    (hne : target ≠ ship.position) :
    valid_moves_closer game_map occupied_indices ship target
      = valid_moves game_map is_returning occupied_indices ship target := by
  unfold valid_moves_closer valid_moves
  apply List.filter_congr
  intro d _
  have hpos : 0 < game_map.calculate_distance ship.position target := by
    have h1 := hnn ship.position target
    have h2 : game_map.calculate_distance ship.position target ≠ 0 :=
      fun h => hne ((hzero _ _).mp h).symm
    omega
  by_cases ht : directional_offset game_map ship.position d = target
  · have hd : game_map.calculate_distance (directional_offset game_map ship.position d)
        target < game_map.calculate_distance ship.position target := by
      rw [(hzero _ _).mpr ht]; exact hpos
    simp [hd]
  · simp [ht]

theorem path_move_closer_eq (c : Constants) (game_map : GameMap) (me : Player)
    (endgame : Bool) (is_returning : FlagMap) (occupied_indices : List Int) (ship : Ship)
    (hzero : ∀ a b, game_map.calculate_distance a b = 0 ↔ a = b)
    (hnn : ∀ a b, 0 ≤ game_map.calculate_distance a b) :
    path_move_closer c game_map me endgame is_returning occupied_indices ship
      = path_move c game_map me endgame is_returning occupied_indices ship := by
  unfold path_move_closer path_move
  by_cases ht : target_pos c game_map me is_returning ship = ship.position
  · simp only [ht, if_true]
  · simp only [ht, if_false]
    rw [valid_moves_closer_eq game_map is_returning occupied_indices ship _ hzero hnn ht]

theorem decide_ship_closer_eq (c : Constants) (game_map : GameMap) (me : Player)
    (endgame : Bool) (is_returning : FlagMap) (occupied_indices : List Int) (ship : Ship)
    (hzero : ∀ a b, game_map.calculate_distance a b = 0 ↔ a = b)
    (hnn : ∀ a b, 0 ≤ game_map.calculate_distance a b) :
    decide_ship_closer c game_map me endgame is_returning occupied_indices ship
      = decide_ship c game_map me endgame is_returning occupied_indices ship := by
  unfold decide_ship_closer decide_ship safe_move_closer safe_move
  rw [path_move_closer_eq c game_map me endgame is_returning occupied_indices ship hzero hnn]

theorem loop_step_closer_eq (c : Constants) (game_map : GameMap) (me : Player)
    (endgame : Bool) (is_returning : FlagMap)
    (hzero : ∀ a b, game_map.calculate_distance a b = 0 ↔ a = b)
    (hnn : ∀ a b, 0 ≤ game_map.calculate_distance a b) :
    loop_step_closer c game_map me endgame is_returning
      = loop_step c game_map me endgame is_returning := by
  funext st ship
  unfold loop_step_closer loop_step
  rw [decide_ship_closer_eq c game_map me endgame is_returning st.occupied_indices ship
    hzero hnn]

/-- C18. The landing-exactly-on-the-target branch of local pathfinding is redundant: for a
distance function (non-negative, with `distance(a, b) = 0` exactly when `a = b`), the
planner with the branch `else if (!is_returning[id] && p == target_pos)` removed takes the
same decision and pushes the same command for every unit, map, flag mapping and claimed-cell
set as the planner with it, and the two decision loops agree on every list of units; a
neighbour equal to a target different from the current position is already strictly closer
to the target. -/
theorem landing_branch_redundant (c : Constants) (game_map : GameMap) (me : Player)
    (endgame : Bool) (is_returning : FlagMap)
    (hzero : ∀ a b, game_map.calculate_distance a b = 0 ↔ a = b)
    (hnn : ∀ a b, 0 ≤ game_map.calculate_distance a b) :
    (∀ (occupied_indices : List Int) (ship : Ship),
        decide_ship_closer c game_map me endgame is_returning occupied_indices ship
          = decide_ship c game_map me endgame is_returning occupied_indices ship)
      ∧ (∀ (st : LoopState) (ship : Ship),
          (loop_step_closer c game_map me endgame is_returning st ship).command_queue
            = (loop_step c game_map me endgame is_returning st ship).command_queue)
      ∧ (∀ ships : List Ship,
          decision_loop_closer c game_map me endgame is_returning ships
            = decision_loop c game_map me endgame is_returning ships)
      ∧ (∀ (ship : Ship) (target : Position) (d : Direction),
          target ≠ ship.position →
          directional_offset game_map ship.position d = target →
          game_map.calculate_distance (directional_offset game_map ship.position d) target
            < game_map.calculate_distance ship.position target) := by
  have hstep := loop_step_closer_eq c game_map me endgame is_returning hzero hnn
  refine ⟨fun occ ship => decide_ship_closer_eq c game_map me endgame is_returning occ ship
    hzero hnn, ?_, ?_, ?_⟩
  · intro st ship
    rw [hstep]
  · intro ships
    unfold decision_loop_closer decision_loop
    rw [hstep]
  · intro ship target d hne ht
    have h1 := hnn ship.position target
    have h2 : game_map.calculate_distance ship.position target ≠ 0 :=
      fun h => hne ((hzero _ _).mp h).symm
    rw [(hzero _ _).mpr ht]
    omega

theorem landing_branch_redundant_witness :
    decision_loop_closer sample_constants crowded_map rival_player false FlagMap.empty
        rival_player.ships
      = decision_loop sample_constants crowded_map rival_player false FlagMap.empty
        rival_player.ships :=
  (landing_branch_redundant sample_constants crowded_map rival_player false FlagMap.empty
    sample_distance_eq_zero sample_distance_nonneg).2.2.1 rival_player.ships

/-! ## Two units on one cell at the map edge: C1, C11 -/

theorem edge_flags :
    update_states sample_constants edge_player false FlagMap.empty [west_ship, east_ship]
      = (FlagMap.empty.set 1 false).set 2 false := by
  funext k
  have h5 : ¬ (((5 : Int) : ℚ) ≥ ((1000 : Int) : ℚ) * (9 / 10)) := by norm_num
  have h10 : ¬ (((10 : Int) : ℚ) ≥ ((1000 : Int) : ℚ) * (9 / 10)) := by norm_num
  have hn : (FlagMap.empty.set 1 false) 2 = none := by decide
  have hg : (FlagMap.empty.set 1 false).get 1 = false := by decide
  have hg2 : ((FlagMap.empty.set 1 false).set 2 false).get 2 = false := by decide
  simp only [update_states, List.foldl_cons, List.foldl_nil, update_state, west_ship,
    east_ship, sample_constants, if_true, h5, h10, hn, hg, hg2]
  rfl

theorem edge_target_east :
    target_pos sample_constants torus_map edge_player
        ((FlagMap.empty.set 1 false).set 2 false) east_ship = { x := 31, y := 5 } := by
  have h0 : Int.tdiv 0 10 = 0 := by decide
  simp [target_pos, can_move, move_cost, scan_neighbors, scan_step, gain_move, gain_stay,
    ALL_CARDINALS, directional_offset, torus_map, normalize, east_ship, sample_constants,
    sample_neighbor, FlagMap.get, FlagMap.set, FlagMap.empty, h0]
  norm_num

theorem edge_target_west :
    target_pos sample_constants torus_map edge_player
        ((FlagMap.empty.set 1 false).set 2 false) west_ship = { x := -1, y := 5 } := by
  have h0 : Int.tdiv 0 10 = 0 := by decide
  simp [target_pos, can_move, move_cost, scan_neighbors, scan_step, gain_move, gain_stay,
    ALL_CARDINALS, directional_offset, torus_map, normalize, west_ship, sample_constants,
    sample_neighbor, FlagMap.get, FlagMap.set, FlagMap.empty, h0]

theorem edge_path_east :
    path_move sample_constants torus_map edge_player false
        ((FlagMap.empty.set 1 false).set 2 false) [] east_ship = Direction.EAST := by
  rw [path_move_towards _ _ _ _ _ _ _ (by rw [edge_target_east]; decide) (by decide),
    edge_target_east]
  decide

theorem edge_path_west :
    path_move sample_constants torus_map edge_player false
        ((FlagMap.empty.set 1 false).set 2 false) [191] west_ship = Direction.WEST := by
  rw [path_move_towards _ _ _ _ _ _ _ (by rw [edge_target_west]; decide) (by decide),
    edge_target_west]
  decide

theorem edge_loop :
    [east_ship, west_ship].foldl
        (loop_step sample_constants torus_map edge_player false
          ((FlagMap.empty.set 1 false).set 2 false))
        { occupied_indices := [], command_queue := [], final_positions := [] }
      = { occupied_indices := [159, 191],
          command_queue := [Command.move 2 Direction.EAST, Command.move 1 Direction.WEST],
          final_positions := [{ x := 31, y := 5 }, { x := -1, y := 5 }] } := by
  have h1 : loop_step sample_constants torus_map edge_player false
      ((FlagMap.empty.set 1 false).set 2 false)
      { occupied_indices := [], command_queue := [], final_positions := [] } east_ship
      = { occupied_indices := [191], command_queue := [Command.move 2 Direction.EAST],
          final_positions := [{ x := 31, y := 5 }] } := by
    simp only [loop_step, decide_ship_eq, edge_path_east]
    rfl
  have h2 : loop_step sample_constants torus_map edge_player false
      ((FlagMap.empty.set 1 false).set 2 false)
      { occupied_indices := [191], command_queue := [Command.move 2 Direction.EAST],
        final_positions := [{ x := 31, y := 5 }] } west_ship
      = { occupied_indices := [159, 191],
          command_queue := [Command.move 2 Direction.EAST, Command.move 1 Direction.WEST],
          final_positions := [{ x := 31, y := 5 }, { x := -1, y := 5 }] } := by
    simp only [loop_step, decide_ship_eq, edge_path_west]
    rfl
  rw [List.foldl_cons, h1, List.foldl_cons, h2, List.foldl_nil]

theorem edge_sorted :
    sort_ships ((FlagMap.empty.set 1 false).set 2 false) [west_ship, east_ship]
      = [east_ship, west_ship] := by
  decide

theorem edge_turn_flags :
    (turn sample_constants 10 edge_player torus_map FlagMap.empty).is_returning
      = (FlagMap.empty.set 1 false).set 2 false := by
  have hend : end_game_mode sample_constants 10 = false := by decide
  have hships : edge_player.ships = [west_ship, east_ship] := rfl
  simp only [turn, hend, hships, edge_flags]

/-- C1 fails at the map edge. On the 32x32 wrapping map the snapshot puts the two ships on
the distinct cells `(0, 5)` and `(30, 5)`, both marked occupied; the turn issues a move east
to the ship on `(30, 5)` and a move west to the ship on `(0, 5)`. The final positions
`(31, 5)` and `(-1, 5)` have the different claimed indices 191 and 159, yet they denote the
same cell `(31, 5)` of the map: two units commit to one cell. -/
theorem double_claim_at_map_edge :
    (edge_player.ships.map Ship.position).Nodup
      ∧ (∀ s ∈ edge_player.ships, torus_map.is_occupied s.position = true)
      ∧ (turn sample_constants 10 edge_player torus_map FlagMap.empty).my_ships
        = [east_ship, west_ship]
      ∧ (turn sample_constants 10 edge_player torus_map FlagMap.empty).command_queue
        = [Command.move 2 Direction.EAST, Command.move 1 Direction.WEST]
      ∧ List.zipWith (destination torus_map)
          (turn sample_constants 10 edge_player torus_map FlagMap.empty).my_ships
          (turn sample_constants 10 edge_player torus_map FlagMap.empty).command_queue
        = [{ x := 31, y := 5 }, { x := -1, y := 5 }]
      ∧ cell_index torus_map { x := 31, y := 5 } = 191
      ∧ cell_index torus_map { x := -1, y := 5 } = 159
      ∧ normalize torus_map.width torus_map.height { x := 31, y := 5 }
        = normalize torus_map.width torus_map.height { x := -1, y := 5 } := by
  have hend : end_game_mode sample_constants 10 = false := by decide
  have hships : edge_player.ships = [west_ship, east_ship] := rfl
  have hmy : (turn sample_constants 10 edge_player torus_map FlagMap.empty).my_ships
      = [east_ship, west_ship] := by
    simp only [turn, hend, hships, edge_flags, edge_sorted]
  have hcq : (turn sample_constants 10 edge_player torus_map FlagMap.empty).command_queue
      = [Command.move 2 Direction.EAST, Command.move 1 Direction.WEST] := by
    simp only [turn, hend, hships, edge_flags, edge_sorted, decision_loop, edge_loop]
    decide
  refine ⟨by decide, by decide, hmy, hcq, ?_, by decide, by decide, by decide⟩
  rw [hmy, hcq]
  decide

/-- C11 fails at the map edge. On the 32x32 wrapping map both ships can afford to move,
each has as target the cardinal neighbour carrying resource 1000, at distance exactly 1,
and the two targets `(31, 5)` and `(-1, 5)` are the same cell of the map, unoccupied and
unclaimed when the first ship is processed. The first ship is issued the move east onto the
cell; the second, processed right after it, is issued the move west onto the same cell
instead of a stay, the cell having been claimed under index 191 and tested under 159. -/
theorem contested_cell_at_map_edge :
    (turn sample_constants 10 edge_player torus_map FlagMap.empty).is_returning
        = (FlagMap.empty.set 1 false).set 2 false
      ∧ east_ship.halite ≥ move_cost sample_constants torus_map east_ship
      ∧ west_ship.halite ≥ move_cost sample_constants torus_map west_ship
      ∧ target_pos sample_constants torus_map edge_player
          ((FlagMap.empty.set 1 false).set 2 false) east_ship
        = directional_offset torus_map east_ship.position Direction.EAST
      ∧ target_pos sample_constants torus_map edge_player
          ((FlagMap.empty.set 1 false).set 2 false) west_ship
        = directional_offset torus_map west_ship.position Direction.WEST
      ∧ torus_map.calculate_distance east_ship.position
          (directional_offset torus_map east_ship.position Direction.EAST) = 1
      ∧ torus_map.calculate_distance west_ship.position
          (directional_offset torus_map west_ship.position Direction.WEST) = 1
      ∧ normalize torus_map.width torus_map.height
          (directional_offset torus_map east_ship.position Direction.EAST)
        = normalize torus_map.width torus_map.height
          (directional_offset torus_map west_ship.position Direction.WEST)
      ∧ torus_map.is_occupied
          (directional_offset torus_map east_ship.position Direction.EAST) = false
      ∧ (loop_step sample_constants torus_map edge_player false
          ((FlagMap.empty.set 1 false).set 2 false)
          { occupied_indices := [], command_queue := [], final_positions := [] }
          east_ship).command_queue = [Command.move 2 Direction.EAST]
      ∧ ([east_ship, west_ship].foldl
          (loop_step sample_constants torus_map edge_player false
            ((FlagMap.empty.set 1 false).set 2 false))
          { occupied_indices := [], command_queue := [], final_positions := [] }).command_queue
        = [Command.move 2 Direction.EAST, Command.move 1 Direction.WEST] := by
  refine ⟨edge_turn_flags, by decide, by decide, ?_, ?_, by decide, by decide, by decide,
    by decide, ?_, ?_⟩
  · rw [edge_target_east]; decide
  · rw [edge_target_west]; decide
  · simp only [loop_step, decide_ship_eq, edge_path_east]
    rfl
  · rw [edge_loop]

end CigmanIA
